import Mathlib

/-!
Verification of the data-mining pipeline (NomadList scrapper).

This file embeds, as executable Lean definitions, the storage layer of
`src/db/mysql_connector.py` (the upsert engine: `_upsert_and_get_id`,
`_upsert_tab_and_attributes`, `_upsert_key_value_tab_info`, `_upsert_weather`,
`_upsert_many`, `_insert_relationships`, `insert_city_info`) and the pipeline
driver of `src/scrapper/nomad_list_scrapper.py` (`_fetch_details` composed with
`grequests.imap`, and the counting loop of `scrap_cities`), and proves the
specified properties about them.

The MySQL database is modelled relationally: a table is a list of rows in
insertion order together with the auto-increment counter.  SQL `WHERE c = v`
comparisons use SQL equality (NULL is never equal to anything), while the
Python `!=` comparison inside `_upsert_and_get_id` uses Python equality
(None equals None).  The schema file `create_schemas.sql` is not part of the
sources, so unique-key constraints (which decide what `INSERT IGNORE` and
`ON DUPLICATE KEY UPDATE` do) are modelled from the spec, as noted on each
definition concerned.
-/

namespace NomadList

/-- A SQL value: NULL, an integer, or a string.  Detail records store strings
and numbers; absent columns read as NULL. -/
inductive Val
  | null
  | int (n : Int)
  | str (s : String)
deriving DecidableEq, Repr

/-- SQL equality as used in `WHERE` clauses and unique-key comparisons:
`NULL` is never equal to anything (including `NULL`). -/
def sqlEq : Val → Val → Bool
  | .null, _ => false
  | _, .null => false
  | a, b => a == b

/-- Python equality on SQL values, as used by the `!=` comparison in
`_upsert_and_get_id`: `None == None` holds, unlike SQL `NULL`. -/
def pyNe (a b : Val) : Bool := decide (a ≠ b)

/-- A row of a generic table: association list from column name to value,
in column order.  A column that is absent reads as NULL. -/
abbrev Row := List (String × Val)

/-- Look up a column in a row (first binding wins, like a Python dict). -/
def lookupCol : Row → String → Option Val
  | [], _ => none
  | (c, v) :: r, c0 => if c = c0 then some v else lookupCol r c0

/-- Read a column of a row; absent columns are NULL. -/
def getCol (row : Row) (c : String) : Val := (lookupCol row c).getD .null

/-- Overwrite (or append) one column binding of a row, as a SQL `SET c = v`. -/
def setCol : Row → String → Val → Row
  | [], c, v => [(c, v)]
  | (c0, v0) :: r, c, v => if c0 = c then (c, v) :: r else (c0, v0) :: setCol r c v

/-- Apply a full column/value assignment to a row (the `SET` list of the
`UPDATE` statement in `_upsert_and_get_id`). -/
def applyVals (row : Row) (values : List (String × Val)) : Row :=
  values.foldl (fun r cv => setCol r cv.1 cv.2) row

/-- A generic SQL table: rows `(id, columns)` in insertion order plus the
auto-increment counter for the next generated id. -/
structure Table where
  rows : List (Nat × Row)
  nextId : Nat
deriving DecidableEq, Repr

/-- Does a row satisfy a conjunction of `c = v` filters (SQL semantics)? -/
def matchRow (fs : List (String × Val)) (row : Row) : Bool :=
  fs.all fun cv => sqlEq (getCol row cv.1) cv.2

/-- `SELECT ... WHERE <filters>` followed by `fetchone()`: the first row of the
table satisfying all filters. -/
def selectFirst (t : Table) (fs : List (String × Val)) : Option (Nat × Row) :=
  t.rows.find? fun r => matchRow fs r.2

/-- Does inserting `new` conflict with row `row` on unique key `ukey`
(MySQL unique-index semantics: a conflict needs all key columns pairwise
equal and non-NULL)? -/
def conflicts (ukey : List String) (row new : Row) : Bool :=
  ukey.all fun c => sqlEq (getCol row c) (getCol new c)

/-- `INSERT IGNORE` of one row.  Modelled from the spec: each table has the
unique key `ukey` named at the call site (the schema file is not in the
sources).  Returns the new table and the generated id (`none` when the insert
was ignored because of a duplicate key). -/
def insertIgnore (t : Table) (ukey : List String) (cols : Row) : Table × Option Nat :=
  if t.rows.any fun r => conflicts ukey r.2 cols then (t, none)
  else ({ rows := t.rows ++ [(t.nextId, cols)], nextId := t.nextId + 1 }, some t.nextId)

/-- `UPDATE t SET <values> WHERE id = rowId`. -/
def updateById (t : Table) (rowId : Nat) (values : List (String × Val)) : Table :=
  { t with rows := t.rows.map fun r => if r.1 = rowId then (r.1, applyVals r.2 values) else r }

/-- The filter pairs of `_upsert_and_get_id`: the entries of `values_dict`
whose key belongs to the domain identifier (`none` keeps every entry, like
`domain_identifier is None`). -/
def filtersOf (values : List (String × Val)) (domainIdentifier : Option (List String)) :
    List (String × Val) :=
  values.filter fun cv =>
    match domainIdentifier with
    | none => true
    | some ks => ks.contains cv.1

/-- Result of `_upsert_and_get_id`: the returned id, the table afterwards, and
whether an `UPDATE` / `INSERT` statement was actually executed. -/
structure UpsertResult where
  id : Nat
  table : Table
  updated : Bool
  inserted : Bool
deriving DecidableEq, Repr

/-- Embeds `MySQLConnector._upsert_and_get_id` (src/db/mysql_connector.py).
Selects the existing row by the domain-identifier subset of `values`; if one
is found, compares all provided values with Python `!=` and issues a single
`UPDATE` of every provided column only when some value differs, returning the
found id; otherwise executes `INSERT IGNORE` of the full value set and returns
`cursor.lastrowid`.  `ukey` is the unique key of the table (modelled from the
spec, the schema file being absent from the sources). -/
def upsertAndGetId (t : Table) (values : List (String × Val))
    (domainIdentifier : Option (List String)) (ukey : List String) : UpsertResult :=
  match selectFirst t (filtersOf values domainIdentifier) with
  | some (rowId, row) =>
    if values.any fun cv => pyNe (getCol row cv.1) cv.2 then
      { id := rowId, table := updateById t rowId values, updated := true, inserted := false }
    else
      { id := rowId, table := t, updated := false, inserted := false }
  | none =>
    { id := (insertIgnore t ukey values).2.getD 0, table := (insertIgnore t ukey values).1,
      updated := false, inserted := (insertIgnore t ukey values).2.isSome }

/-- The WHERE clause string that `_upsert_and_get_id` assembles for its SELECT:
a join of `c = %s` comparisons with the separator string written in the source
as a space followed by AND, with no space after the AND. -/
def whereClauseOf (values : List (String × Val)) (domainIdentifier : Option (List String)) :
    String :=
  String.intercalate " AND" ((filtersOf values domainIdentifier).map fun cv => cv.1 ++ " = %s")

/-- A `city_attributes` row.  Spec: one row per `(entity, attribute)` holding
the current description/value/url. -/
structure CityAttrRow where
  id_city : Nat
  id_attribute : Nat
  description : Val
  attribute_value : Val
  url : Val
deriving DecidableEq, Repr

/-- A `monthly_weathers_attributes` row.  Spec: one row per
`(entity, attribute, month_number)`. -/
structure MonthlyRow where
  id_city : Nat
  id_attribute : Nat
  month_number : Nat
  attribute_value : Val
  description : Val
deriving DecidableEq, Repr

/-- A `photos` row (`_upsert_many` target). -/
structure PhotoRow where
  id_city : Nat
  src : String
deriving DecidableEq, Repr

/-- A `pros_and_cons` row; `kind` is the P/C flag the persister attaches. -/
structure ProConRow where
  id_city : Nat
  description : String
  kind : String
deriving DecidableEq, Repr

/-- A `reviews` row. -/
structure ReviewRow where
  id_city : Nat
  description : String
deriving DecidableEq, Repr

/-- A `cities_relationships` row: a directed edge, with the relation type
stored as the index of the type name in the list Near, Next, Similar. -/
structure RelRow where
  id_city : Nat
  id_related_city : Nat
  relType : Nat
deriving DecidableEq, Repr

/-- The keyed upsert performed by `INSERT ... ON DUPLICATE KEY UPDATE`:
if a row with the same unique key exists, the non-key columns of every such
row are overwritten; otherwise the new row is appended.  Modelled from the
spec: the unique key of the target table is `key` (the schema file is absent
from the sources). -/
def upsertBy {α κ : Type} [DecidableEq κ] (key : α → κ) (upd : α → α → α)
    (rows : List α) (r : α) : List α :=
  if rows.any fun e => key e = key r then
    rows.map fun e => if key e = key r then upd e r else e
  else rows ++ [r]

/-- `INSERT IGNORE` on a table whose unique key is the full row content.
Modelled from the spec: photos, pros/cons, reviews and relationship edges are
append-only with exact-duplicate suppression, no key beyond entity+content. -/
def insertIgnoreRow {α : Type} [DecidableEq α] (rows : List α) (r : α) : List α :=
  if rows.contains r then rows else rows ++ [r]

/-- The rows carrying the key of `r` are exactly one copy of `r`: the state a
keyed upsert of `r` leaves the target table in. -/
def Settled {α κ : Type} (key : α → κ) (rows : List α) (r : α) : Prop :=
  (∃ e ∈ rows, key e = key r) ∧ ∀ e ∈ rows, key e = key r → e = r

/-- Unique key of `city_attributes` (spec: one row per `(entity, attribute)`). -/
def caKey (r : CityAttrRow) : Nat × Nat := (r.id_city, r.id_attribute)

/-- The `ON DUPLICATE KEY UPDATE` clause of `_upsert_key_value_tab_info`:
overwrite description, attribute_value and url. -/
def caUpd (e r : CityAttrRow) : CityAttrRow :=
  { e with description := r.description, attribute_value := r.attribute_value, url := r.url }

/-- Unique key of `monthly_weathers_attributes` (spec: one row per
`(entity, attribute, month_number)`). -/
def mwKey (r : MonthlyRow) : Nat × Nat × Nat := (r.id_city, r.id_attribute, r.month_number)

/-- The `ON DUPLICATE KEY UPDATE` clause of `_upsert_weather`: overwrite
attribute_value and description. -/
def mwUpd (e r : MonthlyRow) : MonthlyRow :=
  { e with attribute_value := r.attribute_value, description := r.description }

/-- The state of the NomadList schema: one field per table touched by
`insert_city_info`. -/
structure DB where
  continents : Table
  countries : Table
  cities : Table
  tabs : Table
  attributes : Table
  city_attributes : List CityAttrRow
  photos : List PhotoRow
  pros_and_cons : List ProConRow
  reviews : List ReviewRow
  monthly_weathers_attributes : List MonthlyRow
  cities_relationships : List RelRow
deriving DecidableEq, Repr

/-- The empty schema right after `create_schemas.sql` (auto-increment counters
start at 1). -/
def emptyDB : DB :=
  { continents := { rows := [], nextId := 1 }
    countries := { rows := [], nextId := 1 }
    cities := { rows := [], nextId := 1 }
    tabs := { rows := [], nextId := 1 }
    attributes := { rows := [], nextId := 1 }
    city_attributes := []
    photos := []
    pros_and_cons := []
    reviews := []
    monthly_weathers_attributes := []
    cities_relationships := [] }

/-- One key/value tab entry as `CityScrapper` produces it: a tuple
`(description, attribute value, optional url)` (`info[0]`, `info[1]`, and
`info[2] if len(info) > 2 else None` in `_upsert_key_value_tab_info`). -/
abbrev TabEntry := Val × Val × Option Val

/-- One month entry of a weather series: the tuple `(label, value,
description)` unpacked by `_upsert_weather`. -/
abbrev MonthEntry := Val × Val × Val

/-- The detail record handed to `insert_city_info`, with the shape the spec
gives it in its data model: identity strings, the three key/value tabs, the
monthly Weather tab, photo/pro/con/review text, and the related-name lists. -/
structure Details where
  continent : String
  country : String
  city : String
  rank : Val
  scores : List (String × TabEntry)
  digitalNomadGuide : List (String × TabEntry)
  costOfLiving : List (String × TabEntry)
  photos : List String
  pros : List String
  cons : List String
  reviews : List String
  weather : List (String × List MonthEntry)
  near : List String
  next : List String
  similar : List String
deriving DecidableEq, Repr

/-- A row holding only a `name` column: the shape inserted into `tabs` by
`_upsert_tab_and_attributes` and into `cities` by `_insert_relationships`. -/
def nameRow (n : String) : Row := [("name", Val.str n)]

/-- An `attributes` row as `_upsert_tab_and_attributes` inserts it. -/
def attrRow (idTab : Nat) (a : String) : Row :=
  [("name", Val.str a), ("id_tab", Val.int (Int.ofNat idTab))]

/-- `cursor.executemany` of an `INSERT IGNORE`: one insert per element. -/
def insertFold {α : Type} (ukey : List String) (mk : α → Row) (t : Table) (xs : List α) :
    Table :=
  xs.foldl (fun t2 x => (insertIgnore t2 ukey (mk x)).1) t

/-- Python dict lookup `tab_info.get(name)` where the probe is the `name`
value read back from the attributes table. -/
def lookupInfo {β : Type} (tabInfo : List (String × β)) : Val → Option β
  | .str s => tabInfo.lookup s
  | _ => none

/-- Python membership `name in details.get(type_name, [])` where `name` comes
from the cities table. -/
def valIn : Val → List String → Bool
  | .str s, l => l.contains s
  | _, _ => false

/-- `SELECT id FROM tabs WHERE name = ...` followed by `fetchone()` and
unpacking (`id_tab, = cursor.fetchone()`). -/
def tabIdOf (tabs1 : Table) (tabName : String) : Nat :=
  ((tabs1.rows.find? fun r => sqlEq (getCol r.2 "name") (.str tabName)).map Prod.fst).getD 0

/-- `SELECT id, name FROM attributes WHERE id_tab = ...` with `fetchall()`. -/
def selectAttrs (attrs1 : Table) (idTab : Nat) : List (Nat × Val) :=
  (attrs1.rows.filter fun r =>
    sqlEq (getCol r.2 "id_tab") (.int (Int.ofNat idTab))).map fun r => (r.1, getCol r.2 "name")

/-- Embeds `MySQLConnector._upsert_tab_and_attributes`: `INSERT IGNORE` the
tab name, select its id, `INSERT IGNORE` one attribute row per attribute name
of the tab info, then select back `(id, name)` of every attribute of that tab.
Returns the selected attribute list together with the new state. -/
def upsertTabAndAttributes (db : DB) (tabName : String) (attrNames : List String) :
    List (Nat × Val) × DB :=
  let tabs1 := (insertIgnore db.tabs ["name"] (nameRow tabName)).1
  let idTab := tabIdOf tabs1 tabName
  let attrs1 := insertFold ["name", "id_tab"] (attrRow idTab) db.attributes attrNames
  (selectAttrs attrs1 idTab, { db with tabs := tabs1, attributes := attrs1 })

/-- The `city_attributes` value rows `_upsert_key_value_tab_info` builds: one
per selected attribute whose name the tab info mentions. -/
def cityAttrValues (idCity : Nat) (attrs : List (Nat × Val)) (tabInfo : List (String × TabEntry)) :
    List CityAttrRow :=
  attrs.filterMap fun ia =>
    (lookupInfo tabInfo ia.2).map fun info =>
      { id_city := idCity, id_attribute := ia.1, description := info.1,
        attribute_value := info.2.1, url := info.2.2.getD .null }

/-- Embeds `MySQLConnector._upsert_key_value_tab_info`. -/
def upsertKeyValueTabInfo (db : DB) (idCity : Nat) (tabName : String)
    (tabInfo : List (String × TabEntry)) : DB :=
  let res := upsertTabAndAttributes db tabName (tabInfo.map Prod.fst)
  { res.2 with city_attributes :=
      (cityAttrValues idCity res.1 tabInfo).foldl (upsertBy caKey caUpd) res.2.city_attributes }

/-- The `monthly_weathers_attributes` value rows `_upsert_weather` builds: for
every selected attribute, one row per entry of its series with `month_number`
equal to the enumeration index plus one. -/
def weatherValues (idCity : Nat) (attrs : List (Nat × Val))
    (weather : List (String × List MonthEntry)) : List MonthlyRow :=
  attrs.flatMap fun ia =>
    ((lookupInfo weather ia.2).getD []).enum.map fun ie =>
      { id_city := idCity, id_attribute := ia.1, month_number := ie.1 + 1,
        attribute_value := ie.2.2.1, description := ie.2.2.2 }

/-- The attribute list the Weather step works from. -/
def weatherAttrs (db : DB) (weather : List (String × List MonthEntry)) : List (Nat × Val) :=
  (upsertTabAndAttributes db "Weather" (weather.map Prod.fst)).1

/-- Embeds `MySQLConnector._upsert_weather`. -/
def upsertWeather (db : DB) (idCity : Nat) (weather : List (String × List MonthEntry)) : DB :=
  let res := upsertTabAndAttributes db "Weather" (weather.map Prod.fst)
  { res.2 with monthly_weathers_attributes :=
      ((weatherValues idCity res.1 weather).foldl (upsertBy mwKey mwUpd)
        res.2.monthly_weathers_attributes) }

/-- Embeds `MySQLConnector._upsert_many` for the photos table. -/
def upsertManyPhotos (rows : List PhotoRow) (idCity : Nat) (srcs : List String) : List PhotoRow :=
  srcs.foldl (fun rs s => insertIgnoreRow rs { id_city := idCity, src := s }) rows

/-- Embeds `MySQLConnector._upsert_many` for the pros_and_cons table, applied
to the P-tagged pros followed by the C-tagged cons built by
`insert_city_info`. -/
def upsertManyProsCons (rows : List ProConRow) (idCity : Nat) (pros cons : List String) :
    List ProConRow :=
  (pros.map (fun p => ({ id_city := idCity, description := p, kind := "P" } : ProConRow))
      ++ cons.map fun c => ({ id_city := idCity, description := c, kind := "C" } : ProConRow)).foldl
    insertIgnoreRow rows

/-- Embeds `MySQLConnector._upsert_many` for the reviews table. -/
def upsertManyReviews (rows : List ReviewRow) (idCity : Nat) (texts : List String) :
    List ReviewRow :=
  texts.foldl (fun rs s => insertIgnoreRow rs { id_city := idCity, description := s }) rows

/-- The union `list(set(...))` of the Near/Next/Similar name lists built by
`_insert_relationships`.  Python set order is unspecified; the model fixes
the deduplication of the concatenation. -/
def relatedNames (d : Details) : List String := (d.near ++ d.next ++ d.similar).dedup

/-- The per-type name lists in the order of the `types` list of
`_insert_relationships` (Near, Next, Similar), so that the stored relation
type is the index in this list. -/
def relTypeLists (d : Details) : List (List String) := [d.near, d.next, d.similar]

/-- `SELECT id, name FROM cities WHERE name IN (...)` of
`_insert_relationships`. -/
def relatedSelect (cities1 : Table) (names : List String) : List (Nat × Row) :=
  cities1.rows.filter fun r => names.any fun n => sqlEq (getCol r.2 "name") (.str n)

/-- The relationship tuples `_insert_relationships` builds: one per selected
row and type list containing its name, the type stored as the index. -/
def relEdges (idCity : Nat) (d : Details) (related : List (Nat × Row)) : List RelRow :=
  related.flatMap fun r =>
    (relTypeLists d).enum.filterMap fun itl =>
      if valIn (getCol r.2 "name") itl.2 then
        some { id_city := idCity, id_related_city := r.1, relType := itl.1 }
      else none

/-- Embeds `MySQLConnector._insert_relationships`.  `INSERT IGNORE` a bare
name-only cities row per related name, then select `(id, name)` of the rows
whose name is in the list, and `INSERT IGNORE` one directed edge per
`(related row, type list containing its name)`.  The Bool result records
whether the step raised: with no related names the SELECT is rendered with a
zero-element `IN ()` list, which MySQL rejects as a syntax error before any
edge is inserted (`executemany` over the empty name list is a no-op). -/
def insertRelationships (db : DB) (idCity : Nat) (d : Details) : DB × Bool :=
  if (relatedNames d).isEmpty then
    ({ db with cities := insertFold ["name"] nameRow db.cities (relatedNames d) }, true)
  else
    ({ db with
        cities := insertFold ["name"] nameRow db.cities (relatedNames d)
        cities_relationships :=
          (relEdges idCity d (relatedSelect
            (insertFold ["name"] nameRow db.cities (relatedNames d))
            (relatedNames d))).foldl insertIgnoreRow db.cities_relationships }, false)

/-- The value dict of the continents upsert in `insert_city_info`. -/
def continentValues (d : Details) : List (String × Val) := [("name", Val.str d.continent)]

/-- The value dict of the countries upsert in `insert_city_info`. -/
def countryValues (d : Details) (idContinent : Nat) : List (String × Val) :=
  [("name", Val.str d.country), ("id_continent", Val.int (Int.ofNat idContinent))]

/-- The value dict of the cities upsert in `insert_city_info`. -/
def cityValues (d : Details) (idCountry : Nat) : List (String × Val) :=
  [("name", Val.str d.city), ("city_rank", d.rank), ("id_country", Val.int (Int.ofNat idCountry))]

/-- The first three steps of `insert_city_info`: upsert the continent, the
country (referencing it), and the city (referencing the country), returning
the city id each later step receives. -/
def upsertGeo (db : DB) (d : Details) : Nat × DB :=
  let rc := upsertAndGetId db.continents (continentValues d) (some ["name"]) ["name"]
  let db1 : DB := { db with continents := rc.table }
  let rco := upsertAndGetId db1.countries (countryValues d rc.id) (some ["name"]) ["name"]
  let db2 : DB := { db1 with countries := rco.table }
  let rci := upsertAndGetId db2.cities (cityValues d rco.id) (some ["name"]) ["name"]
  (rci.id, { db2 with cities := rci.table })

/-- The three key/value tab steps of `insert_city_info` (Scores, Digital
Nomad Guide, Cost of Living). -/
def tabsPhase (db : DB) (idCity : Nat) (d : Details) : DB :=
  let db4 := upsertKeyValueTabInfo db idCity "Scores" d.scores
  let db5 := upsertKeyValueTabInfo db4 idCity "Digital Nomad Guide" d.digitalNomadGuide
  upsertKeyValueTabInfo db5 idCity "Cost of Living" d.costOfLiving

/-- The `_upsert_many` steps of `insert_city_info` (photos, pros and cons,
reviews). -/
def rowsPhase (db : DB) (idCity : Nat) (d : Details) : DB :=
  let db7 : DB := { db with photos := upsertManyPhotos db.photos idCity d.photos }
  let db8 : DB :=
    { db7 with pros_and_cons := upsertManyProsCons db7.pros_and_cons idCity d.pros d.cons }
  { db8 with reviews := upsertManyReviews db8.reviews idCity d.reviews }

/-- The state `insert_city_info` builds before its final
`_insert_relationships` step: all earlier writes, each already committed. -/
def insertCityInfoNoRel (db : DB) (d : Details) : DB :=
  upsertWeather (rowsPhase (tabsPhase (upsertGeo db d).2 (upsertGeo db d).1 d)
    (upsertGeo db d).1 d) (upsertGeo db d).1 d.weather

/-- Embeds `MySQLConnector.insert_city_info`, additionally exposing the id of
the persisted city row (a local of the Python function) and whether the run
of the method raised.  Every helper commits as it goes, so the returned state
holds everything executed before a raise. -/
def insertCityInfoCore (db : DB) (d : Details) : Nat × DB × Bool :=
  let rrel := insertRelationships (insertCityInfoNoRel db d) (upsertGeo db d).1 d
  ((upsertGeo db d).1, rrel.1, rrel.2)

/-- `insert_city_info` as the callers see it: the state afterwards, plus
whether the call raised. -/
def insertCityInfo (db : DB) (d : Details) : DB × Bool :=
  ((insertCityInfoCore db d).2.1, (insertCityInfoCore db d).2.2)

/-! ## Pipeline driver (`src/scrapper/nomad_list_scrapper.py`)

`scrap_cities` iterates over `grequests.imap(reqs, size=...,
exception_handler=self._exception_handler)`.  `grequests.imap` yields a
response for every request that completed with a response object (whatever
its status code); for a request that failed with a transport error it calls
the exception handler instead and yields nothing, and `_exception_handler`
only logs and returns `None`.  The stream is modelled as the list, in
completion order, of per-request outcomes. -/

/-- What `_map_details` does with one yielded response: returns a detail
record, returns `None` (the extractor found nothing), raises `HTTPError`
(`raise_for_status` on a non-2xx response), or raises some other exception
while extracting.  `CityScrapper` is outside the core, so the outcome is
carried by the item. -/
inductive ItemResult
  | details (d : Details)
  | noData
  | httpError
  | exn
deriving DecidableEq, Repr

/-- One yielded response, together with the behaviour of the storage layer
for it: `fatalStorage` records that the MySQL connector raised a fatal
connection-level error on the first statement of `insert_city_info` for this
record (so the state is unchanged), an environment event outside the model of
the SQL semantics. -/
structure Item where
  result : ItemResult
  fatalStorage : Bool
deriving DecidableEq, Repr

/-- One request of the batch, in completion order: either it completed with a
response (yielded by `grequests.imap`), or it failed with a transport error,
in which case `imap` invokes the exception handler (which only logs) and
yields nothing for it. -/
inductive ReqOutcome
  | yields (it : Item)
  | transportError
deriving DecidableEq, Repr

/-- The responses `grequests.imap` actually yields to the `for` loop. -/
def yieldedItems (reqs : List ReqOutcome) : List Item :=
  reqs.filterMap fun r =>
    match r with
    | .yields it => some it
    | .transportError => none

/-- Is this request outcome a transport error (dropped by `imap`)? -/
def isTransportError : ReqOutcome → Bool
  | .transportError => true
  | .yields _ => false

/-- The locals of `scrap_cities` while the loop runs: the shared MySQL state
and the `total`, `successes`, `failures` counters. -/
structure RunState where
  db : DB
  total : Nat
  successes : Nat
  failures : Nat
deriving DecidableEq, Repr

/-- The summary shape the spec prescribes for the run (total, successes,
failures). -/
structure Summary where
  total : Nat
  successes : Nat
  failures : Nat
deriving DecidableEq, Repr

/-- One iteration of the `for res in self._fetch_details(...)` loop body of
`scrap_cities`: `_map_details` outcome dispatch, `insert_city_info` on a
detail record, `successes += 1` on success, `except HTTPError` and
`except Exception` counting a failure (a fatal storage error is an
`Exception` too, so it is caught here as well), and `finally: total += 1`
(which also runs for the `continue` taken when the record is `None`). -/
def itemStep (st : RunState) (it : Item) : RunState :=
  match it.result with
  | .details d =>
    if it.fatalStorage then
      { st with failures := st.failures + 1, total := st.total + 1 }
    else
      let res := insertCityInfo st.db d
      if res.2 then
        { st with db := res.1, failures := st.failures + 1, total := st.total + 1 }
      else
        { st with db := res.1, successes := st.successes + 1, total := st.total + 1 }
  | .noData => { st with total := st.total + 1 }
  | .httpError => { st with failures := st.failures + 1, total := st.total + 1 }
  | .exn => { st with failures := st.failures + 1, total := st.total + 1 }

/-- The whole `for` loop of `scrap_cities` over the yielded responses. -/
def itemLoop (items : List Item) (st : RunState) : RunState :=
  items.foldl itemStep st

/-- The loop of `scrap_cities` driven by `_fetch_details`: only the requests
that completed with a response reach the loop body. -/
def scrapLoop (reqs : List ReqOutcome) (st : RunState) : RunState :=
  itemLoop (yieldedItems reqs) st

/-- The state the loop starts from: `total = successes = failures = 0`. -/
def initState (db : DB) : RunState :=
  { db := db, total := 0, successes := 0, failures := 0 }

/-- Embeds `NomadListScrapper.scrap_cities`: runs the counting loop (whose
final locals are returned as instrumentation) and then executes the bare
`return` statement of the source, so the Python return value — the second
component — is `None`: no summary object is built or returned. -/
def scrapCities (reqs : List ReqOutcome) (db : DB) : RunState × Option Summary :=
  (scrapLoop reqs (initState db), none)

/-! ## Well-formedness of reachable schema states

Auto-increment primary keys are unique and below the counter.  These
invariants hold of the empty schema and are preserved by every operation of
the model; the idempotence theorem assumes them for the lookup tables whose
generated ids it threads around (tabs and attributes). -/

/-- Invariant of an auto-increment table: ids are pairwise distinct and below
the counter. -/
def TableWF (t : Table) : Prop :=
  (t.rows.map Prod.fst).Nodup ∧ ∀ r ∈ t.rows, r.1 < t.nextId

instance (t : Table) : Decidable (TableWF t) := by
  unfold TableWF; infer_instance

/-- The well-formedness `insert_city_info` relies on: the tabs and attributes
lookup tables have sound auto-increment ids. -/
def DBWF (db : DB) : Prop := TableWF db.tabs ∧ TableWF db.attributes

instance (db : DB) : Decidable (DBWF db) := by
  unfold DBWF; infer_instance

/-! ## Concrete sample data used by witnesses and counterexamples -/

/-- A sample detail record (a city with the full complement of sections). -/
def exDetails : Details :=
  { continent := "Europe"
    country := "Portugal"
    city := "Lisbon"
    rank := .int 1
    scores := [("Fun", (.str "Great nightlife", .int 8, none))]
    digitalNomadGuide := [("Internet", (.str "fast", .str "50 Mbps", some (.str "u")))]
    costOfLiving := []
    photos := ["p1", "p2"]
    pros := ["warm"]
    cons := ["crowded"]
    reviews := ["nice"]
    weather := [("Humidity", [(.str "Jan", .int 60, .str "d1"), (.str "Feb", .int 55, .str "d2")])]
    near := ["Porto"]
    next := []
    similar := ["Porto", "Barcelona"] }

/-- The sample record with all three relation lists empty. -/
def exDetailsNoRel : Details :=
  { exDetails with near := [], next := [], similar := [] }

/-- A record that lists its own city name as a near relation. -/
def exDetailsSelf : Details :=
  { exDetails with city := "Porto", near := ["Porto"], similar := [] }

/-- A record whose single Weather attribute has a full 12-month series. -/
def exDetailsWeather : Details :=
  { exDetails with weather :=
      [("Humidity", (List.range 12).map fun i => (.str "m", .int (Int.ofNat i), .str "d"))] }

example :
    upsertAndGetId { rows := [], nextId := 1 } [("name", .str "Europe")]
      (some ["name"]) ["name"]
      = { id := 1, table := { rows := [(1, [("name", .str "Europe")])], nextId := 2 },
          updated := false, inserted := true } := by decide

example :
    upsertAndGetId { rows := [(7, [("name", .str "Europe")])], nextId := 8 }
      [("name", .str "Europe")] (some ["name"]) ["name"]
      = { id := 7, table := { rows := [(7, [("name", .str "Europe")])], nextId := 8 },
          updated := false, inserted := false } := by decide

example :
    (upsertAndGetId { rows := [(7, [("name", .str "Lisbon"), ("city_rank", .int 3)])], nextId := 8 }
      [("name", .str "Lisbon"), ("city_rank", .int 1)] (some ["name"]) ["name"]).updated
      = true := by decide

/-! ## Counting behaviour of the driver loop -/

/-- Every loop iteration bumps `total` by exactly one (the increment sits in a
`finally` block, so it runs on success, on skip, and on caught failure). -/
theorem itemStep_total (st : RunState) (it : Item) : (itemStep st it).total = st.total + 1 := by
  rcases it with ⟨r, f⟩
  cases r with
  | details d =>
    cases f with
    | false =>
      dsimp only [itemStep]
      split
      · rfl
      · split <;> rfl
    | true => rfl
  | noData => rfl
  | httpError => rfl
  | exn => rfl

/-- After the loop, `total` has counted exactly the yielded responses. -/
theorem itemLoop_total (items : List Item) (st : RunState) :
    (itemLoop items st).total = st.total + items.length := by
  induction items generalizing st with
  | nil => rfl
  | cons it rest ih =>
    show (itemLoop rest (itemStep st it)).total = st.total + (rest.length + 1)
    rw [ih, itemStep_total]
    omega

/-- Splitting the loop around one item. -/
theorem itemLoop_append (l1 l2 : List Item) (st : RunState) :
    itemLoop (l1 ++ l2) st = itemLoop l2 (itemLoop l1 st) := by
  simp [itemLoop, List.foldl_append]

/-- Requests dropped by `grequests.imap` (transport errors) versus yielded
responses: together they account for the whole batch. -/
theorem yieldedItems_length (reqs : List ReqOutcome) :
    (yieldedItems reqs).length + reqs.countP isTransportError = reqs.length := by
  induction reqs with
  | nil => rfl
  | cons r rest ih =>
    simp only [yieldedItems] at ih
    cases r <;>
      simp [yieldedItems, List.filterMap_cons, List.countP_cons, isTransportError,
        List.length_cons] <;>
      omega

/-- C3 (counterexample).  A batch of two requests in which the first fails
with a transport error and the second succeeds end to end: the failed request
is dropped by `grequests.imap` (the exception handler only logs), so the loop
body never sees it — `total` ends at 1, not 2, and `failures` ends at 0, not
at least 1, contradicting the claim. -/
theorem transport_error_not_counted :
    (scrapLoop [ReqOutcome.transportError,
        ReqOutcome.yields { result := .details exDetails, fatalStorage := false }]
      (initState emptyDB)).total = 1 ∧
    (scrapLoop [ReqOutcome.transportError,
        ReqOutcome.yields { result := .details exDetails, fatalStorage := false }]
      (initState emptyDB)).failures = 0 ∧
    (scrapLoop [ReqOutcome.transportError,
        ReqOutcome.yields { result := .details exDetails, fatalStorage := false }]
      (initState emptyDB)).successes = 1 := by
  refine ⟨?_, ?_, ?_⟩ <;> decide

/-- C3 (amended).  In a run over `n` entity references of which exactly one
fails with a transport error, the loop is exactly the loop over the yielded
responses — the other `n - 1` results are still produced and persisted — but
the failed request contributes nothing: the total count is `n - 1`, and the
transport error adds nothing to any counter (it is only logged by the
exception handler). -/
theorem transport_error_isolation (reqs : List ReqOutcome) (db : DB)
    (h : reqs.countP isTransportError = 1) :
    scrapLoop reqs (initState db) = itemLoop (yieldedItems reqs) (initState db) ∧
    (scrapLoop reqs (initState db)).total = reqs.length - 1 := by
  refine ⟨rfl, ?_⟩
  have h2 := yieldedItems_length reqs
  show (itemLoop (yieldedItems reqs) (initState db)).total = reqs.length - 1
  rw [itemLoop_total]
  simp only [initState]
  omega

/-- C3 (witness for the amended theorem), at a concrete two-request batch
with one transport error. -/
theorem transport_error_isolation_witness :
    ([ReqOutcome.transportError,
        ReqOutcome.yields { result := .details exDetails, fatalStorage := false }].countP
      isTransportError = 1) ∧
    (scrapLoop [ReqOutcome.transportError,
        ReqOutcome.yields { result := .details exDetails, fatalStorage := false }]
      (initState emptyDB)).total
      = [ReqOutcome.transportError,
          ReqOutcome.yields { result := .details exDetails, fatalStorage := false }].length - 1 :=
  ⟨by decide,
    (transport_error_isolation
      [ReqOutcome.transportError,
        ReqOutcome.yields { result := .details exDetails, fatalStorage := false }]
      emptyDB (by decide)).2⟩

/-- C4 (counterexample).  Two yielded records; persisting the first raises a
fatal storage error.  The loop does not terminate: the error is swallowed by
the blanket `except Exception` handler as one failure, and the second record
is still processed and persisted successfully (`successes = 1`, `total = 2`),
contradicting the claim that the error propagates and aborts the run. -/
theorem fatal_storage_error_continues_run :
    (itemLoop [{ result := .details exDetails, fatalStorage := true },
        { result := .details exDetails, fatalStorage := false }] (initState emptyDB)).total = 2 ∧
    (itemLoop [{ result := .details exDetails, fatalStorage := true },
        { result := .details exDetails, fatalStorage := false }]
      (initState emptyDB)).failures = 1 ∧
    (itemLoop [{ result := .details exDetails, fatalStorage := true },
        { result := .details exDetails, fatalStorage := false }]
      (initState emptyDB)).successes = 1 := by
  refine ⟨?_, ?_, ?_⟩ <;> decide

/-- C4 (amended).  A fatal storage error raised while persisting one record
inside the loop is caught by the `except Exception` arm like any other
per-record error: it is counted as one failure, `total` still advances, and
the loop goes on to process the remaining responses.  Only errors raised
outside the per-item try block (such as opening the connection) can abort
the run. -/
theorem fatal_storage_error_absorbed (pre post : List Item) (d : Details) (st : RunState) :
    itemLoop (pre ++ ({ result := .details d, fatalStorage := true } : Item) :: post) st
      = itemLoop post
          { itemLoop pre st with
              failures := (itemLoop pre st).failures + 1
              total := (itemLoop pre st).total + 1 } := by
  rw [itemLoop_append]
  rfl

/-- C5 (counterexample).  A concrete successful run: the value returned by
`scrap_cities` is `None` — it carries no total/success/failure counts. -/
theorem scrap_cities_returns_none_example :
    (scrapCities [ReqOutcome.yields { result := .details exDetails, fatalStorage := false }]
      emptyDB).2 = none := rfl

/-- C5 (amended).  `scrap_cities` accumulates the total/success/failure
counters in loop locals (and logs them), but its `return` statement returns
no summary value: the caller always receives `None`. -/
theorem scrap_cities_no_summary (reqs : List ReqOutcome) (db : DB) :
    (scrapCities reqs db).2 = none ∧
    (scrapCities reqs db).1.total = (yieldedItems reqs).length := by
  refine ⟨rfl, ?_⟩
  show (itemLoop (yieldedItems reqs) (initState db)).total = _
  rw [itemLoop_total]
  show 0 + (yieldedItems reqs).length = (yieldedItems reqs).length
  omega

/-- C6.  A yielded response whose extraction returns the no-data signal
(`details is None`) takes the `continue` branch: neither `successes` nor
`failures` moves, but the `finally` block still increments `total`. -/
theorem no_data_counts_total_only (st : RunState) (it : Item) (h : it.result = .noData) :
    itemStep st it = { st with total := st.total + 1 } := by
  rcases it with ⟨r, f⟩
  simp only at h
  subst h
  rfl

/-- C6 (witness): the no-data step at a concrete state. -/
theorem no_data_counts_total_only_witness :
    itemStep (initState emptyDB) { result := .noData, fatalStorage := false }
      = { initState emptyDB with total := (initState emptyDB).total + 1 } :=
  no_data_counts_total_only (initState emptyDB) { result := .noData, fatalStorage := false } rfl

/-- C10.  A record whose Near, Next and Similar lists are all empty:
`_insert_relationships` builds its related-cities SELECT with a zero-element
`IN ()` list, which raises, and `insert_city_info` ends in that error; the
state it leaves behind is exactly the one the earlier steps committed
(continent, country, city, attribute values, photos, pros/cons, reviews,
weather), since every helper commits as it goes. -/
theorem insert_city_info_empty_relations (db : DB) (d : Details)
    (hn : d.near = []) (hx : d.next = []) (hs : d.similar = []) :
    insertCityInfo db d = (insertCityInfoNoRel db d, true) := by
  rcases d with ⟨dc, dco, dci, dr, ds, dg, dl, dp, dpr, dcn, drv, dw, dnear, dnext, dsim⟩
  simp only at hn hx hs
  subst hn; subst hx; subst hs
  rfl

/-- C10 (witness): the concrete record with no relation lists errors in the
relationship step and keeps all earlier writes. -/
theorem insert_city_info_empty_relations_witness :
    insertCityInfo emptyDB exDetailsNoRel = (insertCityInfoNoRel emptyDB exDetailsNoRel, true) :=
  insert_city_info_empty_relations emptyDB exDetailsNoRel rfl rfl rfl

/-! ## The generic upsert (`_upsert_and_get_id`) -/

theorem getCol_cons_self (c : String) (v : Val) (rest : Row) :
    getCol ((c, v) :: rest) c = v := by
  simp [getCol, lookupCol]

theorem getCol_cons_ne (a c : String) (v : Val) (rest : Row) (h : a ≠ c) :
    getCol ((a, v) :: rest) c = getCol rest c := by
  simp [getCol, lookupCol, h]

/-- A single-column domain identifier that no entry of the value dict carries
filters everything out. -/
theorem filtersOf_not_mem (values : List (String × Val)) (c : String)
    (h : c ∉ values.map Prod.fst) : filtersOf values (some [c]) = [] := by
  induction values with
  | nil => rfl
  | cons av rest ih =>
    simp only [List.map_cons, List.mem_cons, not_or] at h
    simp only [filtersOf, List.filter_cons]
    rw [if_neg]
    · exact ih h.2
    · simp [h.1, Ne.symm h.1]

/-- With a single-column domain identifier present among the (distinct) dict
keys, the filter list of `_upsert_and_get_id` is exactly the one comparison
on that column and the value the dict binds it to. -/
theorem filtersOf_single (values : List (String × Val)) (c : String)
    (hsub : c ∈ values.map Prod.fst) (hnodup : (values.map Prod.fst).Nodup) :
    filtersOf values (some [c]) = [(c, getCol values c)] := by
  induction values with
  | nil => simp at hsub
  | cons av rest ih =>
    rcases av with ⟨a, v⟩
    simp only [List.map_cons, List.nodup_cons] at hnodup
    by_cases hac : a = c
    · subst hac
      have hrest : a ∉ rest.map Prod.fst := hnodup.1
      simp only [filtersOf, List.filter_cons]
      rw [if_pos (by simp)]
      have h0 : filtersOf rest (some [a]) = [] := filtersOf_not_mem rest a hrest
      simp only [filtersOf] at h0
      rw [h0, getCol_cons_self]
    · simp only [List.map_cons, List.mem_cons] at hsub
      rcases hsub with h | h
      · exact absurd h.symm hac
      · simp only [filtersOf, List.filter_cons]
        rw [if_neg (by simp [hac]), getCol_cons_ne a c v rest hac]
        exact ih h hnodup.2

/-- On a single-column key, the unique-key conflict check of `INSERT IGNORE`
coincides with the WHERE match of the preceding SELECT. -/
theorem conflicts_single_eq_match (c : String) (row values : Row) :
    conflicts [c] row values = matchRow [(c, getCol values c)] row := by
  simp [conflicts, matchRow]

/-- C2 (counterexample).  The WHERE clause of the SELECT in
`_upsert_and_get_id` is assembled by joining the `col = %s` comparisons with
the separator written as space-A-N-D in the source, with no space after the
AND.  With a natural-key subset of two or more columns the keyword fuses with
the following column name (here the single token ANDid_continent), so the
statement sent to MySQL is a syntax error: no row is selected, no update or
insert happens, contradicting the claimed behaviour for every natural-key
subset.  With one column no separator is used, and the clause is sound. -/
theorem upsert_where_clause_malformed :
    whereClauseOf [("name", Val.str "X"), ("id_continent", Val.int 1)]
        (some ["name", "id_continent"])
      = "name = %s ANDid_continent = %s" ∧
    whereClauseOf [("name", Val.str "X"), ("id_continent", Val.int 1)]
        (some ["name", "id_continent"])
      ≠ "name = %s AND id_continent = %s" ∧
    whereClauseOf [("name", Val.str "X")] (some ["name"]) = "name = %s" := by
  refine ⟨by decide, by decide, by decide⟩

/-- C2 (amended).  For every table, full column/value set (with distinct
column names, as a Python dict has), and single-column natural key contained
in the provided columns — the only form `insert_city_info` uses, and the only
one whose WHERE clause is well formed — `_upsert_and_get_id` selects the
existing row by the key column: if a row is found it returns that row's id
without inserting, and issues the single UPDATE of all provided columns
exactly when at least one provided value differs (Python `!=`) from the
stored one, leaving the table untouched otherwise; if no row is found it
inserts the full value set (the insert is not ignored: on the key column the
unique-key conflict check coincides with the failed WHERE match) and returns
the newly generated id. -/
theorem upsert_and_get_id_single_key_spec (t : Table) (values : List (String × Val)) (c : String)
    (hsub : c ∈ values.map Prod.fst) (hnodup : (values.map Prod.fst).Nodup) :
    (∀ rowId row, selectFirst t (filtersOf values (some [c])) = some (rowId, row) →
      (upsertAndGetId t values (some [c]) [c]).id = rowId ∧
      (upsertAndGetId t values (some [c]) [c]).inserted = false ∧
      ((upsertAndGetId t values (some [c]) [c]).updated = true ↔
        ∃ cv ∈ values, getCol row cv.1 ≠ cv.2) ∧
      ((upsertAndGetId t values (some [c]) [c]).updated = true →
        (upsertAndGetId t values (some [c]) [c]).table = updateById t rowId values) ∧
      ((upsertAndGetId t values (some [c]) [c]).updated = false →
        (upsertAndGetId t values (some [c]) [c]).table = t)) ∧
    (selectFirst t (filtersOf values (some [c])) = none →
      (upsertAndGetId t values (some [c]) [c]).id = t.nextId ∧
      (upsertAndGetId t values (some [c]) [c]).inserted = true ∧
      (upsertAndGetId t values (some [c]) [c]).updated = false ∧
      (upsertAndGetId t values (some [c]) [c]).table
        = { rows := t.rows ++ [(t.nextId, values)], nextId := t.nextId + 1 }) := by
  constructor
  · intro rowId row hsel
    have e : upsertAndGetId t values (some [c]) [c]
        = if values.any (fun cv => pyNe (getCol row cv.1) cv.2) then
            { id := rowId, table := updateById t rowId values, updated := true, inserted := false }
          else { id := rowId, table := t, updated := false, inserted := false } := by
      unfold upsertAndGetId
      rw [hsel]
    by_cases hany : (values.any fun cv => pyNe (getCol row cv.1) cv.2) = true
    · rw [e, if_pos hany]
      refine ⟨rfl, rfl, ?_, fun _ => rfl, fun h => by simp at h⟩
      simp only [true_iff]
      rw [List.any_eq_true] at hany
      rcases hany with ⟨cv, hmem, hne⟩
      exact ⟨cv, hmem, of_decide_eq_true hne⟩
    · rw [e, if_neg hany]
      refine ⟨rfl, rfl, iff_of_false (by simp) ?_, fun h => by simp at h, fun _ => rfl⟩
      intro hex
      rcases hex with ⟨cv, hmem, hne⟩
      exact hany (List.any_eq_true.mpr ⟨cv, hmem, decide_eq_true hne⟩)
  · intro hnone
    have hfs := filtersOf_single values c hsub hnodup
    have hnoconf : (t.rows.any fun r => conflicts [c] r.2 values) = false := by
      rw [List.any_eq_false]
      intro r hr
      have h2 := List.find?_eq_none.mp hnone r hr
      rw [conflicts_single_eq_match, ← hfs]
      simpa using h2
    have e : upsertAndGetId t values (some [c]) [c]
        = { id := t.nextId,
            table := { rows := t.rows ++ [(t.nextId, values)], nextId := t.nextId + 1 },
            updated := false, inserted := true } := by
      unfold upsertAndGetId
      rw [hnone]
      simp [insertIgnore, hnoconf]
    rw [e]
    exact ⟨rfl, rfl, rfl, rfl⟩

/-- C2 (witness for the amended theorem): the insert branch at a concrete
empty table. -/
theorem upsert_and_get_id_single_key_spec_witness :
    (upsertAndGetId { rows := [], nextId := 5 } [("name", Val.str "X")]
        (some ["name"]) ["name"]).id = 5 ∧
    (upsertAndGetId { rows := [], nextId := 5 } [("name", Val.str "X")]
        (some ["name"]) ["name"]).inserted = true :=
  have h := (upsert_and_get_id_single_key_spec { rows := [], nextId := 5 }
    [("name", Val.str "X")] "name" (by decide) (by decide)).2 rfl
  ⟨h.1, h.2.1⟩

/-! ## Value and row lemmas -/

theorem sqlEq_refl (v : Val) (h : v ≠ .null) : sqlEq v v = true := by
  cases v with
  | null => exact absurd rfl h
  | int n => simp [sqlEq]
  | str s => simp [sqlEq]

theorem pyNe_self (v : Val) : pyNe v v = false := by
  simp [pyNe]

theorem getCol_setCol_self (row : Row) (c : String) (v : Val) :
    getCol (setCol row c v) c = v := by
  induction row with
  | nil => simp [setCol, getCol, lookupCol]
  | cons av rest ih =>
    rcases av with ⟨a, w⟩
    by_cases hac : a = c
    · subst hac
      simp [setCol, getCol, lookupCol]
    · simp only [setCol, if_neg hac]
      rw [getCol_cons_ne a c w _ hac]
      exact ih

theorem setCol_getCol_ne (row : Row) (a c : String) (v : Val) (h : a ≠ c) :
    getCol (setCol row a v) c = getCol row c := by
  induction row with
  | nil =>
    show getCol [(a, v)] c = getCol [] c
    rw [getCol_cons_ne a c v [] h]
  | cons bw rest ih =>
    rcases bw with ⟨b, w⟩
    show getCol (if b = a then (a, v) :: rest else (b, w) :: setCol rest a v) c
      = getCol ((b, w) :: rest) c
    by_cases hba : b = a
    · subst hba
      rw [if_pos rfl, getCol_cons_ne b c v rest h, getCol_cons_ne b c w rest h]
    · rw [if_neg hba]
      by_cases hbc : b = c
      · subst hbc
        rw [getCol_cons_self, getCol_cons_self]
      · rw [getCol_cons_ne b c w (setCol rest a v) hbc, getCol_cons_ne b c w rest hbc]
        exact ih

theorem getCol_applyVals_not_mem (vs : List (String × Val)) (row : Row) (c : String)
    (h : c ∉ vs.map Prod.fst) : getCol (applyVals row vs) c = getCol row c := by
  induction vs generalizing row with
  | nil => rfl
  | cons av rest ih =>
    rcases av with ⟨a, w⟩
    simp only [List.map_cons, List.mem_cons, not_or] at h
    show getCol (applyVals (setCol row a w) rest) c = getCol row c
    rw [ih _ h.2, setCol_getCol_ne row a c w (fun e => h.1 e.symm)]

theorem getCol_applyVals_mem (vs : List (String × Val)) (row : Row) (c : String) (v : Val)
    (hnodup : (vs.map Prod.fst).Nodup) (hmem : (c, v) ∈ vs) :
    getCol (applyVals row vs) c = v := by
  induction vs generalizing row with
  | nil => simp at hmem
  | cons av rest ih =>
    rcases av with ⟨a, w⟩
    simp only [List.map_cons, List.nodup_cons] at hnodup
    rcases List.mem_cons.mp hmem with h | h
    · rw [Prod.mk.injEq] at h
      rcases h with ⟨h1, h2⟩
      subst h1; subst h2
      show getCol (applyVals (setCol row c v) rest) c = v
      rw [getCol_applyVals_not_mem rest _ c hnodup.1, getCol_setCol_self]
    · exact ih _ hnodup.2 h

theorem getCol_mem_nodup (vs : List (String × Val)) (c : String) (v : Val)
    (hnodup : (vs.map Prod.fst).Nodup) (hmem : (c, v) ∈ vs) : getCol vs c = v := by
  induction vs with
  | nil => simp at hmem
  | cons av rest ih =>
    rcases av with ⟨a, w⟩
    simp only [List.map_cons, List.nodup_cons] at hnodup
    rcases List.mem_cons.mp hmem with h | h
    · rw [Prod.mk.injEq] at h
      rcases h with ⟨h1, h2⟩
      subst h1; subst h2
      exact getCol_cons_self c v rest
    · have hca : a ≠ c := by
        intro e
        subst e
        exact hnodup.1 (by simpa using List.mem_map_of_mem Prod.fst h)
      rw [getCol_cons_ne a c w rest hca]
      exact ih hnodup.2 h

/-- Re-comparing a value dict against itself finds no difference (the Python
`!=` of `_upsert_and_get_id` sees equal values, None included). -/
theorem values_any_pyNe_self (vs : List (String × Val))
    (hnodup : (vs.map Prod.fst).Nodup) :
    (vs.any fun cv => pyNe (getCol vs cv.1) cv.2) = false := by
  rw [List.any_eq_false]
  intro cv hmem
  rw [getCol_mem_nodup vs cv.1 cv.2 hnodup hmem]
  simp [pyNe_self]

theorem matchRow_single (c : String) (v : Val) (row : Row) :
    matchRow [(c, v)] row = sqlEq (getCol row c) v := by
  simp [matchRow]

/-! ## `find?` helpers -/

theorem find?_append_some {α : Type} (p : α → Bool) (l1 l2 : List α) (a : α)
    (h : l1.find? p = some a) : (l1 ++ l2).find? p = some a := by
  induction l1 with
  | nil => simp [List.find?] at h
  | cons x rest ih =>
    cases hp : p x with
    | true =>
      rw [List.find?_cons_of_pos _ hp] at h
      rw [List.cons_append, List.find?_cons_of_pos _ hp]
      exact h
    | false =>
      rw [List.find?_cons_of_neg _ (by simp [hp])] at h
      rw [List.cons_append, List.find?_cons_of_neg _ (by simp [hp])]
      exact ih h

theorem find?_append_none {α : Type} (p : α → Bool) (l1 l2 : List α)
    (h : l1.find? p = none) : (l1 ++ l2).find? p = l2.find? p := by
  induction l1 with
  | nil => rfl
  | cons x rest ih =>
    cases hp : p x with
    | true => rw [List.find?_cons_of_pos _ hp] at h; cases h
    | false =>
      rw [List.find?_cons_of_neg _ (by simp [hp])] at h
      rw [List.cons_append, List.find?_cons_of_neg _ (by simp [hp])]
      exact ih h

/-! ## `INSERT IGNORE` on full-content unique keys -/

theorem mem_insertIgnoreRow_self {α : Type} [DecidableEq α] (rows : List α) (r : α) :
    r ∈ insertIgnoreRow rows r := by
  unfold insertIgnoreRow
  split
  · next h => exact List.mem_of_elem_eq_true h
  · exact List.mem_append_right _ (List.mem_singleton_self r)

theorem mem_insertIgnoreRow_mono {α : Type} [DecidableEq α] (rows : List α) (r x : α)
    (h : x ∈ rows) : x ∈ insertIgnoreRow rows r := by
  unfold insertIgnoreRow
  split
  · exact h
  · exact List.mem_append_left _ h

theorem insertIgnoreRow_noop {α : Type} [DecidableEq α] (rows : List α) (r : α)
    (h : r ∈ rows) : insertIgnoreRow rows r = rows := by
  unfold insertIgnoreRow
  rw [if_pos (List.elem_eq_true_of_mem h)]

theorem foldl_insertIgnoreRow_noop {α : Type} [DecidableEq α] (L rows : List α)
    (h : ∀ r ∈ L, r ∈ rows) : L.foldl insertIgnoreRow rows = rows := by
  induction L with
  | nil => rfl
  | cons x rest ih =>
    show List.foldl insertIgnoreRow (insertIgnoreRow rows x) rest = rows
    rw [insertIgnoreRow_noop rows x (h x (List.mem_cons_self x rest))]
    exact ih fun r hr => h r (List.mem_cons_of_mem x hr)

theorem mem_foldl_insertIgnoreRow_left {α : Type} [DecidableEq α] (L rows : List α) (x : α)
    (h : x ∈ rows) : x ∈ L.foldl insertIgnoreRow rows := by
  induction L generalizing rows with
  | nil => exact h
  | cons y rest ih =>
    exact ih (insertIgnoreRow rows y) (mem_insertIgnoreRow_mono rows y x h)

theorem mem_foldl_insertIgnoreRow_of_mem_list {α : Type} [DecidableEq α] (L rows : List α)
    (r : α) (h : r ∈ L) : r ∈ L.foldl insertIgnoreRow rows := by
  induction L generalizing rows with
  | nil => simp at h
  | cons x rest ih =>
    rcases List.mem_cons.mp h with h1 | h1
    · subst h1
      exact mem_foldl_insertIgnoreRow_left rest _ r (mem_insertIgnoreRow_self rows r)
    · exact ih _ h1

/-! ## Keyed upserts (`ON DUPLICATE KEY UPDATE`) -/

theorem upsertBy_settles {α κ : Type} [DecidableEq κ] (key : α → κ) (upd : α → α → α)
    (rows : List α) (r : α) (hupd : ∀ e, key e = key r → upd e r = r) :
    Settled key (upsertBy key upd rows r) r := by
  unfold upsertBy
  split
  · next h =>
    rw [List.any_eq_true] at h
    rcases h with ⟨e, he, hke⟩
    have hke2 : key e = key r := of_decide_eq_true hke
    constructor
    · have hmm2 : (if key e = key r then upd e r else e)
          ∈ List.map (fun e => if key e = key r then upd e r else e) rows :=
        List.mem_map_of_mem (fun e => if key e = key r then upd e r else e) he
      rw [if_pos hke2, hupd e hke2] at hmm2
      exact ⟨r, hmm2, rfl⟩
    · intro e2 hmem hke3
      rcases List.mem_map.mp hmem with ⟨e1, he1, hfe⟩
      by_cases hk : key e1 = key r
      · rw [if_pos hk, hupd e1 hk] at hfe
        exact hfe.symm
      · rw [if_neg hk] at hfe
        subst hfe
        exact absurd hke3 hk
  · next h =>
    constructor
    · exact ⟨r, List.mem_append_right _ (List.mem_singleton_self r), rfl⟩
    · intro e hmem hke
      rcases List.mem_append.mp hmem with h1 | h1
      · have hf : (rows.any fun e => decide (key e = key r)) = false :=
          Bool.eq_false_iff.mpr h
        rw [List.any_eq_false] at hf
        exact absurd (decide_eq_true hke) (hf e h1)
      · exact List.mem_singleton.mp h1

theorem upsertBy_preserves_settled {α κ : Type} [DecidableEq κ] (key : α → κ) (upd : α → α → α)
    (rows : List α) (r r2 : α) (hkeyPres : ∀ e, key (upd e r2) = key e)
    (hne : key r2 ≠ key r) (h : Settled key rows r) :
    Settled key (upsertBy key upd rows r2) r := by
  unfold upsertBy
  split
  · constructor
    · rcases h.1 with ⟨e, he, hke⟩
      refine ⟨if key e = key r2 then upd e r2 else e,
        List.mem_map_of_mem (fun e => if key e = key r2 then upd e r2 else e) he, ?_⟩
      by_cases hk : key e = key r2
      · rw [if_pos hk, hkeyPres e, hke]
      · rw [if_neg hk]
        exact hke
    · intro e2 hmem hke
      rcases List.mem_map.mp hmem with ⟨e1, he1, hfe⟩
      by_cases hk : key e1 = key r2
      · rw [if_pos hk] at hfe
        have hk2 : key r2 = key r := by
          rw [← hk, ← hkeyPres e1, hfe, hke]
        exact absurd hk2 hne
      · rw [if_neg hk] at hfe
        subst hfe
        exact h.2 e1 he1 hke
  · constructor
    · rcases h.1 with ⟨e, he, hke⟩
      exact ⟨e, List.mem_append_left _ he, hke⟩
    · intro e2 hmem hke
      rcases List.mem_append.mp hmem with h1 | h1
      · exact h.2 e2 h1 hke
      · rw [List.mem_singleton.mp h1] at hke
        exact absurd hke hne

/-- Upserting a row that is already settled changes nothing. -/
theorem upsertBy_noop {α κ : Type} [DecidableEq κ] (key : α → κ) (upd : α → α → α)
    (rows : List α) (r : α) (hupd : ∀ e, key e = key r → upd e r = r)
    (h : Settled key rows r) : upsertBy key upd rows r = rows := by
  unfold upsertBy
  rw [if_pos]
  · have : ∀ e ∈ rows, (if key e = key r then upd e r else e) = id e := by
      intro e he
      by_cases hk : key e = key r
      · rw [if_pos hk, hupd e hk, h.2 e he hk]
        rfl
      · rw [if_neg hk]
        rfl
    rw [List.map_congr_left this, List.map_id]
  · rcases h.1 with ⟨e, he, hke⟩
    rw [List.any_eq_true]
    exact ⟨e, he, decide_eq_true hke⟩

theorem foldl_upsertBy_noop {α κ : Type} [DecidableEq κ] (key : α → κ) (upd : α → α → α)
    (L rows : List α) (hupd : ∀ e r, key e = key r → upd e r = r)
    (h : ∀ r ∈ L, Settled key rows r) : L.foldl (upsertBy key upd) rows = rows := by
  induction L with
  | nil => rfl
  | cons x rest ih =>
    show List.foldl (upsertBy key upd) (upsertBy key upd rows x) rest = rows
    rw [upsertBy_noop key upd rows x (fun e => hupd e x) (h x (List.mem_cons_self x rest))]
    exact ih fun r hr => h r (List.mem_cons_of_mem x hr)

theorem foldl_upsertBy_preserves_settled {α κ : Type} [DecidableEq κ] (key : α → κ)
    (upd : α → α → α) (L rows : List α) (r : α) (hkeyPres : ∀ e r2, key (upd e r2) = key e)
    (hne : ∀ r2 ∈ L, key r2 ≠ key r) (h : Settled key rows r) :
    Settled key (L.foldl (upsertBy key upd) rows) r := by
  induction L generalizing rows with
  | nil => exact h
  | cons x rest ih =>
    exact ih (upsertBy key upd rows x)
      (fun r2 hr2 => hne r2 (List.mem_cons_of_mem x hr2))
      (upsertBy_preserves_settled key upd rows r x (fun e => hkeyPres e x)
        (hne x (List.mem_cons_self x rest)) h)

/-- After upserting a whole value list with pairwise distinct keys, every row
of the list is settled in the result. -/
theorem foldl_upsertBy_settles {α κ : Type} [DecidableEq κ] (key : α → κ) (upd : α → α → α)
    (L rows : List α) (r : α) (hupd : ∀ e r2, key e = key r2 → upd e r2 = r2)
    (hkeyPres : ∀ e r2, key (upd e r2) = key e) (hnodup : (L.map key).Nodup) (hr : r ∈ L) :
    Settled key (L.foldl (upsertBy key upd) rows) r := by
  induction L generalizing rows with
  | nil => simp at hr
  | cons x rest ih =>
    simp only [List.map_cons, List.nodup_cons] at hnodup
    rcases List.mem_cons.mp hr with h1 | h1
    · subst h1
      show Settled key (List.foldl (upsertBy key upd) (upsertBy key upd rows r) rest) r
      refine foldl_upsertBy_preserves_settled key upd rest _ r hkeyPres ?_
        (upsertBy_settles key upd rows r (fun e => hupd e r))
      intro r2 hr2 hker
      exact hnodup.1 (hker ▸ List.mem_map_of_mem key hr2)
    · exact ih (upsertBy key upd rows x) hnodup.2 h1

theorem upsertBy_keys_nodup {α κ : Type} [DecidableEq κ] (key : α → κ) (upd : α → α → α)
    (rows : List α) (r : α) (hkeyPres : ∀ e, key (upd e r) = key e)
    (h : (rows.map key).Nodup) : ((upsertBy key upd rows r).map key).Nodup := by
  unfold upsertBy
  split
  · have : (rows.map fun e => if key e = key r then upd e r else e).map key = rows.map key := by
      rw [List.map_map]
      refine List.map_congr_left ?_
      intro e he
      by_cases hk : key e = key r
      · show key (if key e = key r then upd e r else e) = key e
        rw [if_pos hk, hkeyPres e]
      · show key (if key e = key r then upd e r else e) = key e
        rw [if_neg hk]
    rw [this]
    exact h
  · next hno =>
    rw [List.map_append]
    have hf : (rows.any fun e => decide (key e = key r)) = false := Bool.eq_false_iff.mpr hno
    rw [List.any_eq_false] at hf
    refine List.Nodup.append h (List.nodup_singleton (key r)) ?_
    intro k hk1 hk2
    rcases List.mem_map.mp hk1 with ⟨e, he, hke⟩
    simp only [List.map_cons, List.map_nil, List.mem_singleton] at hk2
    exact hf e he (decide_eq_true (by rw [hke, hk2]))

theorem foldl_upsertBy_keys_nodup {α κ : Type} [DecidableEq κ] (key : α → κ) (upd : α → α → α)
    (L rows : List α) (hkeyPres : ∀ e r2, key (upd e r2) = key e)
    (h : (rows.map key).Nodup) : ((L.foldl (upsertBy key upd) rows).map key).Nodup := by
  induction L generalizing rows with
  | nil => exact h
  | cons x rest ih =>
    exact ih (upsertBy key upd rows x)
      (upsertBy_keys_nodup key upd rows x (fun e => hkeyPres e x) h)

/-- With pairwise distinct keys, a settled key is carried by exactly one row. -/
theorem length_filter_key_eq_one {α κ : Type} [DecidableEq κ] (key : α → κ) (rows : List α)
    (r : α) (hnodup : (rows.map key).Nodup) (hs : Settled key rows r) :
    (rows.filter fun e => key e = key r).length = 1 := by
  induction rows with
  | nil => simp [Settled] at hs
  | cons x rest ih =>
    simp only [List.map_cons, List.nodup_cons] at hnodup
    by_cases hk : key x = key r
    · have hca : List.filter (fun e => decide (key e = key r)) (x :: rest)
          = x :: List.filter (fun e => decide (key e = key r)) rest := by
        simp [List.filter_cons, hk]
      have hrest : rest.filter (fun e => decide (key e = key r)) = [] := by
        rw [List.filter_eq_nil_iff]
        intro e he hde
        have h3 : key e = key r := of_decide_eq_true hde
        exact hnodup.1 (by rw [← hk] at h3; exact h3 ▸ List.mem_map_of_mem key he)
      rw [hca, hrest]
      rfl
    · have hca : List.filter (fun e => decide (key e = key r)) (x :: rest)
          = List.filter (fun e => decide (key e = key r)) rest := by
        simp [List.filter_cons, hk]
      rw [hca]
      refine ih hnodup.2 ⟨?_, ?_⟩
      · rcases hs.1 with ⟨e, he, hke⟩
        rcases List.mem_cons.mp he with h1 | h1
        · rw [h1] at hke
          exact absurd hke hk
        · exact ⟨e, h1, hke⟩
      · intro e he hke
        exact hs.2 e (List.mem_cons_of_mem x he) hke

/-! ## `INSERT IGNORE` folds on auto-increment tables -/

theorem insertIgnore_cases (t : Table) (k : List String) (cols : Row) :
    ((t.rows.any fun r => conflicts k r.2 cols) = true ∧ (insertIgnore t k cols).1 = t) ∨
    ((t.rows.any fun r => conflicts k r.2 cols) = false ∧
      (insertIgnore t k cols).1
        = { rows := t.rows ++ [(t.nextId, cols)], nextId := t.nextId + 1 }) := by
  unfold insertIgnore
  by_cases h : (t.rows.any fun r => conflicts k r.2 cols) = true
  · left
    rw [if_pos h]
    exact ⟨h, rfl⟩
  · right
    rw [if_neg h]
    exact ⟨Bool.eq_false_iff.mpr h, rfl⟩

theorem insertIgnore_noop_of_conflict (t : Table) (k : List String) (cols : Row)
    (h : (t.rows.any fun r => conflicts k r.2 cols) = true) :
    (insertIgnore t k cols).1 = t := by
  unfold insertIgnore
  rw [if_pos h]

/-- What a batch of `INSERT IGNORE` statements does to a table: it appends
some of the built rows, all with fresh ids. -/
theorem insertFold_rows {α : Type} (k : List String) (mk : α → Row) (t : Table) (xs : List α) :
    ∃ ext, (insertFold k mk t xs).rows = t.rows ++ ext ∧
      (∀ r ∈ ext, ∃ x ∈ xs, r.2 = mk x) ∧
      (∀ r ∈ ext, t.nextId ≤ r.1) ∧
      t.nextId ≤ (insertFold k mk t xs).nextId := by
  induction xs generalizing t with
  | nil => exact ⟨[], by simp [insertFold], by simp, by simp, Nat.le_refl _⟩
  | cons x rest ih =>
    have hstep : insertFold k mk t (x :: rest) = insertFold k mk (insertIgnore t k (mk x)).1 rest :=
      rfl
    rcases insertIgnore_cases t k (mk x) with ⟨_, heq⟩ | ⟨_, heq⟩
    · rcases ih ((insertIgnore t k (mk x)).1) with ⟨ext, h1, h2, h3, h4⟩
      rw [heq] at h1 h3 h4
      refine ⟨ext, by rw [hstep, heq]; exact h1, ?_, h3, by rw [hstep, heq]; exact h4⟩
      intro r hr
      rcases h2 r hr with ⟨y, hy, hmk⟩
      exact ⟨y, List.mem_cons_of_mem x hy, hmk⟩
    · rcases ih ((insertIgnore t k (mk x)).1) with ⟨ext, h1, h2, h3, h4⟩
      rw [heq] at h1 h3 h4
      refine ⟨(t.nextId, mk x) :: ext, ?_, ?_, ?_, ?_⟩
      · rw [hstep, heq, h1]
        show (t.rows ++ [(t.nextId, mk x)]) ++ ext = t.rows ++ (t.nextId, mk x) :: ext
        rw [List.append_assoc]
        rfl
      · intro r hr
        rcases List.mem_cons.mp hr with h5 | h5
        · exact ⟨x, List.mem_cons_self x rest, by rw [h5]⟩
        · rcases h2 r h5 with ⟨y, hy, hmk⟩
          exact ⟨y, List.mem_cons_of_mem x hy, hmk⟩
      · intro r hr
        rcases List.mem_cons.mp hr with h5 | h5
        · rw [h5]
        · have h6 : t.nextId + 1 ≤ r.1 := h3 r h5
          omega
      · rw [hstep, heq]
        have h6 : t.nextId + 1
            ≤ (insertFold k mk { rows := t.rows ++ [(t.nextId, mk x)], nextId := t.nextId + 1 }
                rest).nextId := h4
        omega

/-- A row-level predicate true somewhere in the table stays true through a
batch of inserts (they only append rows). -/
theorem insertFold_any_mono {α : Type} (k : List String) (mk : α → Row) (t : Table)
    (xs : List α) (p : Nat × Row → Bool) (h : t.rows.any p = true) :
    (insertFold k mk t xs).rows.any p = true := by
  rcases insertFold_rows k mk t xs with ⟨ext, h1, _, _, _⟩
  rw [h1, List.any_append, h]
  rfl

/-- A `find?` hit in the table is unchanged by a batch of inserts. -/
theorem insertFold_find?_mono {α : Type} (k : List String) (mk : α → Row) (t : Table)
    (xs : List α) (p : Nat × Row → Bool) (a : Nat × Row) (h : t.rows.find? p = some a) :
    (insertFold k mk t xs).rows.find? p = some a := by
  rcases insertFold_rows k mk t xs with ⟨ext, h1, _, _, _⟩
  rw [h1]
  exact find?_append_some p t.rows ext a h

/-- After the batch, every inserted shape has a conflicting row present
(either one that was already there or the row the batch appended), provided
the shape conflicts with itself, i.e. its key columns are non-NULL. -/
theorem insertFold_conflict_present {α : Type} (k : List String) (mk : α → Row) (t : Table)
    (xs : List α) (x : α) (hx : x ∈ xs) (hself : conflicts k (mk x) (mk x) = true) :
    ((insertFold k mk t xs).rows.any fun r => conflicts k r.2 (mk x)) = true := by
  induction xs generalizing t with
  | nil => simp at hx
  | cons y rest ih =>
    have hstep : insertFold k mk t (y :: rest) = insertFold k mk (insertIgnore t k (mk y)).1 rest :=
      rfl
    rcases List.mem_cons.mp hx with h1 | h1
    · subst h1
      rw [hstep]
      refine insertFold_any_mono k mk _ rest _ ?_
      rcases insertIgnore_cases t k (mk x) with ⟨hc, heq⟩ | ⟨hc, heq⟩
      · rw [heq]
        exact hc
      · rw [heq]
        simp only [List.any_append, List.any_cons, List.any_nil]
        rw [hself]
        simp
    · rw [hstep]
      exact ih _ h1

/-- A batch whose every shape already conflicts is a complete no-op. -/
theorem insertFold_noop {α : Type} (k : List String) (mk : α → Row) (t : Table) (xs : List α)
    (h : ∀ x ∈ xs, (t.rows.any fun r => conflicts k r.2 (mk x)) = true) :
    insertFold k mk t xs = t := by
  induction xs with
  | nil => rfl
  | cons x rest ih =>
    have hstep : insertFold k mk t (x :: rest) = insertFold k mk (insertIgnore t k (mk x)).1 rest :=
      rfl
    rw [hstep, insertIgnore_noop_of_conflict t k (mk x) (h x (List.mem_cons_self x rest))]
    exact ih fun y hy => h y (List.mem_cons_of_mem x hy)

theorem insertIgnore_wf (t : Table) (k : List String) (cols : Row) (h : TableWF t) :
    TableWF (insertIgnore t k cols).1 := by
  rcases insertIgnore_cases t k cols with ⟨_, heq⟩ | ⟨_, heq⟩
  · rw [heq]
    exact h
  · rw [heq]
    constructor
    · simp only [List.map_append, List.map_cons, List.map_nil]
      refine List.Nodup.append h.1 (List.nodup_singleton _) ?_
      intro i hi1 hi2
      simp only [List.mem_singleton] at hi2
      rcases List.mem_map.mp hi1 with ⟨r, hr, hid⟩
      have := h.2 r hr
      omega
    · intro r hr
      rcases List.mem_append.mp hr with h1 | h1
      · have := h.2 r h1
        simp only
        omega
      · simp only [List.mem_singleton] at h1
        rw [h1]
        simp only
        omega

theorem insertFold_wf {α : Type} (k : List String) (mk : α → Row) (t : Table) (xs : List α)
    (h : TableWF t) : TableWF (insertFold k mk t xs) := by
  induction xs generalizing t with
  | nil => exact h
  | cons x rest ih => exact ih _ (insertIgnore_wf t k (mk x) h)

/-! ## Stability of `_upsert_and_get_id` under re-runs -/

theorem find?_cons_pos {α : Type} (q : α → Bool) (a : α) (l : List α) (h : q a = true) :
    (a :: l).find? q = some a :=
  List.find?_cons_of_pos l h

theorem find?_cons_neg {α : Type} (q : α → Bool) (a : α) (l : List α) (h : q a = false) :
    (a :: l).find? q = l.find? q :=
  List.find?_cons_of_neg l (by simp [h])

/-- Scanning the table after the `UPDATE ... WHERE id = rowId` of a previous
upsert: the first hit is still a row with the same id, and its columns carry
the assigned values (every id-matching row was overwritten). -/
theorem find?_update_match (rows : List (Nat × Row)) (fs : List (String × Val)) (rowId : Nat)
    (row : Row) (values : List (String × Val)) (ext : List (Nat × Row))
    (hfind : rows.find? (fun r => matchRow fs r.2) = some (rowId, row))
    (happ : ∀ r2 : Row, matchRow fs (applyVals r2 values) = true) :
    ∃ row2, ((rows.map fun r => if r.1 = rowId then (r.1, applyVals r.2 values) else r)
        ++ ext).find? (fun r => matchRow fs r.2) = some (rowId, row2) ∧
      ∃ r0, row2 = applyVals r0 values := by
  induction rows with
  | nil => simp [List.find?] at hfind
  | cons r rest ih =>
    cases hp : matchRow fs r.2 with
    | true =>
      rw [find?_cons_pos (fun r => matchRow fs r.2) r rest hp] at hfind
      have hr : r = (rowId, row) := by
        cases hfind
        rfl
      subst hr
      refine ⟨applyVals row values, ?_, row, rfl⟩
      simp only [List.map_cons, List.cons_append]
      rw [if_pos trivial]
      exact find?_cons_pos (fun r => matchRow fs r.2) ((rowId, row).1, applyVals (rowId, row).2 values)
        _ (happ (rowId, row).2)
    | false =>
      rw [find?_cons_neg (fun r => matchRow fs r.2) r rest hp] at hfind
      by_cases hid : r.1 = rowId
      · refine ⟨applyVals r.2 values, ?_, r.2, rfl⟩
        simp only [List.map_cons, List.cons_append]
        rw [if_pos hid, ← hid]
        exact find?_cons_pos (fun r => matchRow fs r.2) (r.1, applyVals r.2 values) _ (happ r.2)
      · rcases ih hfind with ⟨row2, hfind2, r0, hrow2⟩
        refine ⟨row2, ?_, r0, hrow2⟩
        simp only [List.map_cons, List.cons_append]
        rw [if_neg hid]
        rw [find?_cons_neg (fun r => matchRow fs r.2) r _ hp]
        exact hfind2

/-- Running `_upsert_and_get_id` again with the same single-column-keyed value
dict, on the table it produced — possibly extended by rows other operations
appended afterwards — finds the row the first run produced, sees no
difference, executes no statement, and returns the same id. -/
theorem upsert_restable (t t2 : Table) (values : List (String × Val)) (c : String)
    (ext : List (Nat × Row))
    (hnodup : (values.map Prod.fst).Nodup)
    (hsub : c ∈ values.map Prod.fst)
    (hnn : getCol values c ≠ .null)
    (ht2 : t2.rows = (upsertAndGetId t values (some [c]) [c]).table.rows ++ ext) :
    upsertAndGetId t2 values (some [c]) [c]
      = { id := (upsertAndGetId t values (some [c]) [c]).id, table := t2,
          updated := false, inserted := false } := by
  have hfs : filtersOf values (some [c]) = [(c, getCol values c)] :=
    filtersOf_single values c hsub hnodup
  have hmemv : (c, getCol values c) ∈ values := by
    rcases List.mem_map.mp hsub with ⟨cv, hcv, hfst⟩
    have h2 : (c, cv.2) ∈ values := by
      rw [← hfst]
      exact hcv
    rw [getCol_mem_nodup values c cv.2 hnodup h2]
    exact h2
  have hsql : sqlEq (getCol values c) (getCol values c) = true := sqlEq_refl _ hnn
  have happ : ∀ r2 : Row, matchRow (filtersOf values (some [c])) (applyVals r2 values) = true := by
    intro r2
    rw [hfs, matchRow_single, getCol_applyVals_mem values r2 c (getCol values c) hnodup hmemv]
    exact hsql
  have hvalmatch : matchRow (filtersOf values (some [c])) values = true := by
    rw [hfs, matchRow_single]
    exact hsql
  have hanyself : (values.any fun cv => pyNe (getCol values cv.1) cv.2) = false :=
    values_any_pyNe_self values hnodup
  cases hsel : selectFirst t (filtersOf values (some [c])) with
  | some pr =>
    rcases pr with ⟨rowId, row⟩
    have e1 : upsertAndGetId t values (some [c]) [c]
        = if values.any (fun cv => pyNe (getCol row cv.1) cv.2) then
            { id := rowId, table := updateById t rowId values, updated := true, inserted := false }
          else { id := rowId, table := t, updated := false, inserted := false } := by
      unfold upsertAndGetId
      rw [hsel]
    by_cases hany : (values.any fun cv => pyNe (getCol row cv.1) cv.2) = true
    · rw [e1, if_pos hany] at ht2 ⊢
      rcases find?_update_match t.rows (filtersOf values (some [c])) rowId row values ext hsel
        happ with ⟨row2, hfind2, r0, hrow2⟩
      have hsel2 : selectFirst t2 (filtersOf values (some [c])) = some (rowId, row2) := by
        show t2.rows.find? _ = _
        rw [ht2]
        exact hfind2
      have hany2 : ¬((values.any fun cv => pyNe (getCol row2 cv.1) cv.2) = true) := by
        have hf : (values.any fun cv => pyNe (getCol row2 cv.1) cv.2) = false := by
          rw [List.any_eq_false]
          intro cv hcv
          rw [hrow2, getCol_applyVals_mem values r0 cv.1 cv.2 hnodup (by
            rcases cv with ⟨c1, v1⟩
            exact hcv)]
          simp [pyNe_self]
        rw [hf]
        simp
      have e2 : upsertAndGetId t2 values (some [c]) [c]
          = if values.any (fun cv => pyNe (getCol row2 cv.1) cv.2) then
              { id := rowId, table := updateById t2 rowId values, updated := true,
                inserted := false }
            else { id := rowId, table := t2, updated := false, inserted := false } := by
        unfold upsertAndGetId
        rw [hsel2]
      rw [e2, if_neg hany2]
    · rw [e1, if_neg hany] at ht2 ⊢
      have hsel2 : selectFirst t2 (filtersOf values (some [c])) = some (rowId, row) := by
        show t2.rows.find? _ = _
        rw [ht2]
        exact find?_append_some _ t.rows ext _ hsel
      have e2 : upsertAndGetId t2 values (some [c]) [c]
          = if values.any (fun cv => pyNe (getCol row cv.1) cv.2) then
              { id := rowId, table := updateById t2 rowId values, updated := true,
                inserted := false }
            else { id := rowId, table := t2, updated := false, inserted := false } := by
        unfold upsertAndGetId
        rw [hsel2]
      rw [e2, if_neg hany]
  | none =>
    have hnoconf : (t.rows.any fun r => conflicts [c] r.2 values) = false := by
      rw [List.any_eq_false]
      intro r hr
      have h2 := List.find?_eq_none.mp hsel r hr
      rw [conflicts_single_eq_match, ← hfs]
      simpa using h2
    have e1 : upsertAndGetId t values (some [c]) [c]
        = { id := t.nextId,
            table := { rows := t.rows ++ [(t.nextId, values)], nextId := t.nextId + 1 },
            updated := false, inserted := true } := by
      unfold upsertAndGetId
      rw [hsel]
      simp [insertIgnore, hnoconf]
    rw [e1] at ht2 ⊢
    have hsel2 : selectFirst t2 (filtersOf values (some [c])) = some (t.nextId, values) := by
      show t2.rows.find? _ = _
      rw [ht2]
      show ((t.rows ++ [(t.nextId, values)]) ++ ext).find? _ = _
      rw [List.append_assoc, find?_append_none _ t.rows _ hsel, List.singleton_append]
      exact find?_cons_pos (fun r => matchRow (filtersOf values (some [c])) r.2)
        (t.nextId, values) ext hvalmatch
    have hnotself : ¬((values.any fun cv => pyNe (getCol values cv.1) cv.2) = true) := by
      rw [hanyself]
      simp
    have e2 : upsertAndGetId t2 values (some [c]) [c]
        = if values.any (fun cv => pyNe (getCol values cv.1) cv.2) then
            { id := t.nextId, table := updateById t2 t.nextId values, updated := true,
              inserted := false }
          else { id := t.nextId, table := t2, updated := false, inserted := false } := by
      unfold upsertAndGetId
      rw [hsel2]
    rw [e2, if_neg hnotself]

/-! ## Conflict and lookup facts for the tab/attribute steps -/

theorem sqlEq_true_str (v : Val) (s : String) (h : sqlEq v (.str s) = true) : v = .str s := by
  cases v with
  | null => simp [sqlEq] at h
  | int n => simp [sqlEq] at h
  | str s2 =>
    simp only [sqlEq] at h
    have h2 : Val.str s2 = Val.str s := by
      have := of_decide_eq_true (by exact h)
      exact this
    exact h2

theorem getCol_nameRow (n : String) : getCol (nameRow n) "name" = .str n :=
  getCol_cons_self "name" (Val.str n) []

theorem getCol_attrRow_name (i : Nat) (a : String) : getCol (attrRow i a) "name" = .str a :=
  getCol_cons_self "name" (Val.str a) _

theorem getCol_attrRow_idtab (i : Nat) (a : String) :
    getCol (attrRow i a) "id_tab" = .int (Int.ofNat i) := by
  show getCol (("name", Val.str a) :: [("id_tab", Val.int (Int.ofNat i))]) "id_tab" = _
  rw [getCol_cons_ne _ _ _ _ (by decide), getCol_cons_self]

theorem conflicts_nameRow (row : Row) (n : String) :
    conflicts ["name"] row (nameRow n) = sqlEq (getCol row "name") (.str n) := by
  simp [conflicts, getCol_nameRow]

theorem conflicts_nameRow_self (n : String) :
    conflicts ["name"] (nameRow n) (nameRow n) = true := by
  rw [conflicts_nameRow, getCol_nameRow]
  exact sqlEq_refl _ (by simp)

theorem conflicts_attrRow_self (i : Nat) (a : String) :
    conflicts ["name", "id_tab"] (attrRow i a) (attrRow i a) = true := by
  simp only [conflicts, List.all_cons, List.all_nil]
  rw [getCol_attrRow_name, getCol_attrRow_idtab]
  rw [sqlEq_refl _ (by simp), sqlEq_refl _ (by simp)]
  rfl

theorem insertIgnore_conflict_present (t : Table) (k : List String) (cols : Row)
    (hself : conflicts k cols cols = true) :
    (((insertIgnore t k cols).1).rows.any fun r => conflicts k r.2 cols) = true := by
  rcases insertIgnore_cases t k cols with ⟨hc, heq⟩ | ⟨hc, heq⟩
  · rw [heq]
    exact hc
  · rw [heq]
    simp only [List.any_append, List.any_cons, List.any_nil]
    rw [hself]
    simp

/-- After the tab name has been `INSERT IGNORE`d, the id select hits a row. -/
theorem insertIgnore_name_found (t : Table) (n : String) :
    ∃ pr, (((insertIgnore t ["name"] (nameRow n)).1).rows.find?
      (fun r => sqlEq (getCol r.2 "name") (Val.str n))) = some pr := by
  have h := insertIgnore_conflict_present t ["name"] (nameRow n) (conflicts_nameRow_self n)
  rw [List.any_eq_true] at h
  rcases h with ⟨r, hr, hc⟩
  have hq : (fun r : Nat × Row => sqlEq (getCol r.2 "name") (Val.str n)) r = true := by
    rw [conflicts_nameRow] at hc
    exact hc
  have h2 : (((insertIgnore t ["name"] (nameRow n)).1).rows.find?
      (fun r => sqlEq (getCol r.2 "name") (Val.str n))).isSome = true := by
    rw [List.find?_isSome]
    exact ⟨r, hr, hq⟩
  rcases Option.isSome_iff_exists.mp h2 with ⟨pr, hpr⟩
  exact ⟨pr, hpr⟩

/-- Two different tab names hitting rows of a table with sound ids resolve to
different tab ids. -/
theorem tabIdOf_ne_of_found (tf : Table) (n1 n2 : String) (hne : n1 ≠ n2)
    (hwf : (tf.rows.map Prod.fst).Nodup)
    (pr1 pr2 : Nat × Row)
    (h1 : tf.rows.find? (fun r => sqlEq (getCol r.2 "name") (Val.str n1)) = some pr1)
    (h2 : tf.rows.find? (fun r => sqlEq (getCol r.2 "name") (Val.str n2)) = some pr2) :
    tabIdOf tf n1 ≠ tabIdOf tf n2 := by
  have hm1 := List.mem_of_find?_eq_some h1
  have hm2 := List.mem_of_find?_eq_some h2
  have hp1 := List.find?_some h1
  have hp2 := List.find?_some h2
  have hn1 : getCol pr1.2 "name" = Val.str n1 := sqlEq_true_str _ _ hp1
  have hn2 : getCol pr2.2 "name" = Val.str n2 := sqlEq_true_str _ _ hp2
  have hprne : pr1 ≠ pr2 := by
    intro e
    rw [e, hn2] at hn1
    exact hne (by cases hn1; rfl)
  have hidne : pr1.1 ≠ pr2.1 := by
    intro e
    exact hprne (List.inj_on_of_nodup_map hwf hm1 hm2 e)
  show (((tf.rows.find? fun r => sqlEq (getCol r.2 "name") (.str n1)).map Prod.fst).getD 0)
    ≠ (((tf.rows.find? fun r => sqlEq (getCol r.2 "name") (.str n2)).map Prod.fst).getD 0)
  rw [h1, h2]
  exact hidne

/-- Association lookup on a dict with distinct keys. -/
theorem lookup_eq_some_of_mem {β : Type} (l : List (String × β)) (a : String) (b : β)
    (hnodup : (l.map Prod.fst).Nodup) (hmem : (a, b) ∈ l) : l.lookup a = some b := by
  induction l with
  | nil => simp at hmem
  | cons xy rest ih =>
    rcases xy with ⟨x, y⟩
    simp only [List.map_cons, List.nodup_cons] at hnodup
    rcases List.mem_cons.mp hmem with h | h
    · rw [Prod.mk.injEq] at h
      rcases h with ⟨h1, h2⟩
      subst h1; subst h2
      simp [List.lookup]
    · have hax : a ≠ x := by
        intro e
        subst e
        exact hnodup.1 (by simpa using List.mem_map_of_mem Prod.fst h)
      have hbeq : (a == x) = false := by
        simp [hax]
      simp only [List.lookup, hbeq]
      exact ih hnodup.2 h

theorem filter_flatMap {α β : Type} (l : List α) (f : α → List β) (p : β → Bool) :
    (l.flatMap f).filter p = l.flatMap fun a => (f a).filter p := by
  induction l with
  | nil => rfl
  | cons x rest ih =>
    simp only [List.flatMap_cons, List.filter_append, ih]

/-- In a flat map over attribute entries with pairwise distinct ids, filtering
the produced rows by the id of one entry keeps exactly that entry's block. -/
theorem flatMap_filter_single {γ : Type} (attrs : List (Nat × Val)) (idA : Nat) (nm : Val)
    (f : Nat × Val → List γ) (idOf : γ → Nat)
    (hmem : (idA, nm) ∈ attrs) (hnodup : (attrs.map Prod.fst).Nodup)
    (hid : ∀ ia, ∀ r ∈ f ia, idOf r = ia.1) :
    ((attrs.flatMap f).filter fun r => idOf r = idA) = f (idA, nm) := by
  induction attrs with
  | nil => simp at hmem
  | cons ia rest ih =>
    simp only [List.map_cons, List.nodup_cons] at hnodup
    rw [List.flatMap_cons, List.filter_append]
    rcases List.mem_cons.mp hmem with h | h
    · subst h
      have hblock : (f (idA, nm)).filter (fun r => decide (idOf r = idA)) = f (idA, nm) := by
        rw [List.filter_eq_self]
        intro r hr
        exact decide_eq_true (hid (idA, nm) r hr)
      have hrest : (rest.flatMap f).filter (fun r => decide (idOf r = idA)) = [] := by
        rw [List.filter_eq_nil_iff]
        intro r hr
        rcases List.mem_flatMap.mp hr with ⟨ia2, hia2, hr2⟩
        rw [hid ia2 r hr2]
        intro hdec
        have h3 : ia2.1 = idA := of_decide_eq_true hdec
        refine hnodup.1 ?_
        have h4 : ia2.1 ∈ rest.map Prod.fst := List.mem_map_of_mem Prod.fst hia2
        rw [h3] at h4
        exact h4
      rw [hblock, hrest, List.append_nil]
    · have hia1 : ia.1 ≠ idA := by
        intro e
        refine hnodup.1 ?_
        rw [e]
        exact List.mem_map_of_mem Prod.fst h
      have hblock : (f ia).filter (fun r => decide (idOf r = idA)) = [] := by
        rw [List.filter_eq_nil_iff]
        intro r hr
        rw [hid ia r hr]
        intro hdec
        exact hia1 (of_decide_eq_true hdec)
      rw [hblock, List.nil_append]
      exact ih h hnodup.2

/-! ## The Weather step (C8) -/

theorem conflicts_attrRow (row : Row) (i : Nat) (a : String) :
    conflicts ["name", "id_tab"] row (attrRow i a)
      = (sqlEq (getCol row "name") (.str a) && sqlEq (getCol row "id_tab") (.int (Int.ofNat i))) := by
  simp only [conflicts, List.all_cons, List.all_nil, getCol_attrRow_name, getCol_attrRow_idtab,
    Bool.and_true]

theorem mwKey_upd (e r : MonthlyRow) : mwKey (mwUpd e r) = mwKey e := rfl

theorem mwUpd_eq (e r : MonthlyRow) (h : mwKey e = mwKey r) : mwUpd e r = r := by
  rcases e with ⟨c1, a1, m1, v1, d1⟩
  rcases r with ⟨c2, a2, m2, v2, d2⟩
  simp only [mwKey, Prod.mk.injEq] at h
  rcases h with ⟨h1, h2, h3⟩
  subst h1; subst h2; subst h3
  rfl

theorem caKey_upd (e r : CityAttrRow) : caKey (caUpd e r) = caKey e := rfl

theorem caUpd_eq (e r : CityAttrRow) (h : caKey e = caKey r) : caUpd e r = r := by
  rcases e with ⟨c1, a1, d1, v1, u1⟩
  rcases r with ⟨c2, a2, d2, v2, u2⟩
  simp only [caKey, Prod.mk.injEq] at h
  rcases h with ⟨h1, h2⟩
  subst h1; subst h2
  rfl

theorem selectAttrs_ids_nodup (a1 : Table) (i1 : Nat) (h : (a1.rows.map Prod.fst).Nodup) :
    ((selectAttrs a1 i1).map Prod.fst).Nodup := by
  unfold selectAttrs
  rw [List.map_map]
  have he : ((a1.rows.filter fun r => sqlEq (getCol r.2 "id_tab") (.int (Int.ofNat i1))).map
      (Prod.fst ∘ fun r => (r.1, getCol r.2 "name")))
      = (a1.rows.filter fun r => sqlEq (getCol r.2 "id_tab") (.int (Int.ofNat i1))).map
        Prod.fst := by
    exact List.map_congr_left fun r _ => rfl
  rw [he]
  exact h.sublist (List.Sublist.map Prod.fst (List.filter_sublist a1.rows))

/-- Every attribute name of the record resolves to an id in the list the
Weather step reads back. -/
theorem weatherAttrs_mem (db : DB) (weather : List (String × List MonthEntry))
    (p : String × List MonthEntry) (hp : p ∈ weather) :
    ∃ idA, (idA, Val.str p.1) ∈ weatherAttrs db weather := by
  have hname : p.1 ∈ weather.map Prod.fst := List.mem_map_of_mem Prod.fst hp
  have hconf := insertFold_conflict_present ["name", "id_tab"]
    (attrRow (tabIdOf (insertIgnore db.tabs ["name"] (nameRow "Weather")).1 "Weather"))
    db.attributes (weather.map Prod.fst) p.1 hname
    (conflicts_attrRow_self _ p.1)
  rw [List.any_eq_true] at hconf
  rcases hconf with ⟨r, hr, hc⟩
  rw [conflicts_attrRow, Bool.and_eq_true] at hc
  refine ⟨r.1, ?_⟩
  show (r.1, Val.str p.1) ∈ selectAttrs _ _
  unfold selectAttrs
  have hrf : r ∈ (insertFold ["name", "id_tab"]
      (attrRow (tabIdOf (insertIgnore db.tabs ["name"] (nameRow "Weather")).1 "Weather"))
      db.attributes (weather.map Prod.fst)).rows.filter
        (fun r => sqlEq (getCol r.2 "id_tab")
          (.int (Int.ofNat (tabIdOf (insertIgnore db.tabs ["name"] (nameRow "Weather")).1
            "Weather")))) := by
    rw [List.mem_filter]
    exact ⟨hr, hc.2⟩
  have h5 : (r.1, getCol r.2 "name") ∈ List.map (fun r : Nat × Row => (r.1, getCol r.2 "name"))
      (List.filter (fun r => sqlEq (getCol r.2 "id_tab")
        (.int (Int.ofNat (tabIdOf (insertIgnore db.tabs ["name"] (nameRow "Weather")).1
          "Weather"))))
        (insertFold ["name", "id_tab"]
          (attrRow (tabIdOf (insertIgnore db.tabs ["name"] (nameRow "Weather")).1 "Weather"))
          db.attributes (List.map Prod.fst weather)).rows) :=
    List.mem_map_of_mem (fun r : Nat × Row => (r.1, getCol r.2 "name")) hrf
  rw [sqlEq_true_str _ _ hc.1] at h5
  exact h5

/-- C8.  For a record whose Weather tab maps each attribute to a 12-month
series, `_upsert_weather` builds, for that attribute's resolved id, exactly
the rows of the series in order with `month_number` 1 through 12, and after
the keyed upsert the table holds exactly one row per
`(city, attribute, month_number)` key for every month 1..12. -/
theorem upsert_weather_months (db : DB) (idCity : Nat)
    (weather : List (String × List MonthEntry))
    (hlen : ∀ p ∈ weather, (p.2 : List MonthEntry).length = 12)
    (hkeys : (weather.map Prod.fst).Nodup)
    (hwfA : TableWF db.attributes)
    (hmono : (db.monthly_weathers_attributes.map mwKey).Nodup) :
    ∀ p ∈ weather, ∃ idA,
      (idA, Val.str p.1) ∈ weatherAttrs db weather ∧
      ((weatherValues idCity (weatherAttrs db weather) weather).filter
          fun r => r.id_attribute = idA)
        = p.2.enum.map (fun ie =>
            { id_city := idCity, id_attribute := idA, month_number := ie.1 + 1,
              attribute_value := ie.2.2.1, description := ie.2.2.2 }) ∧
      (((weatherValues idCity (weatherAttrs db weather) weather).filter
          fun r => r.id_attribute = idA).map fun r => r.month_number)
        = (List.range 12).map (fun i => i + 1) ∧
      ∀ m, 1 ≤ m → m ≤ 12 →
        ((upsertWeather db idCity weather).monthly_weathers_attributes.filter
          fun e => mwKey e = (idCity, idA, m)).length = 1 := by
  intro p hp
  rcases weatherAttrs_mem db weather p hp with ⟨idA, hmem⟩
  have hwfA1 : TableWF (insertFold ["name", "id_tab"]
      (attrRow (tabIdOf (insertIgnore db.tabs ["name"] (nameRow "Weather")).1 "Weather"))
      db.attributes (weather.map Prod.fst)) :=
    insertFold_wf _ _ _ _ hwfA
  have hidsnodup : ((weatherAttrs db weather).map Prod.fst).Nodup :=
    selectAttrs_ids_nodup _ _ hwfA1.1
  have hlook : lookupInfo weather (Val.str p.1) = some p.2 := by
    show weather.lookup p.1 = some p.2
    exact lookup_eq_some_of_mem weather p.1 p.2 hkeys (by
      rcases p with ⟨a, s⟩
      exact hp)
  have hid : ∀ ia : Nat × Val, ∀ r ∈ ((lookupInfo weather ia.2).getD []).enum.map
      (fun ie : Nat × MonthEntry =>
        ({ id_city := idCity, id_attribute := ia.1, month_number := ie.1 + 1,
           attribute_value := ie.2.2.1, description := ie.2.2.2 } : MonthlyRow)),
      r.id_attribute = ia.1 := by
    intro ia r hr
    rcases List.mem_map.mp hr with ⟨ie, _, hrr⟩
    rw [← hrr]
  have hfilter : ((weatherValues idCity (weatherAttrs db weather) weather).filter
      fun r => r.id_attribute = idA)
      = p.2.enum.map (fun ie =>
          { id_city := idCity, id_attribute := idA, month_number := ie.1 + 1,
            attribute_value := ie.2.2.1, description := ie.2.2.2 }) := by
    unfold weatherValues
    have h4 := flatMap_filter_single (weatherAttrs db weather) idA (Val.str p.1)
      (fun ia : Nat × Val => ((lookupInfo weather ia.2).getD []).enum.map
        (fun ie : Nat × MonthEntry =>
          ({ id_city := idCity, id_attribute := ia.1, month_number := ie.1 + 1,
             attribute_value := ie.2.2.1, description := ie.2.2.2 } : MonthlyRow)))
      (fun r : MonthlyRow => r.id_attribute) hmem hidsnodup hid
    dsimp only at h4
    rw [hlook, Option.getD_some] at h4
    exact h4
  have hmonths : (((weatherValues idCity (weatherAttrs db weather) weather).filter
      fun r => r.id_attribute = idA).map fun r => r.month_number)
      = (List.range 12).map (fun i => i + 1) := by
    rw [hfilter, List.map_map]
    have h2 : ((fun r : MonthlyRow => r.month_number) ∘ fun ie : Nat × MonthEntry =>
        ({ id_city := idCity, id_attribute := idA, month_number := ie.1 + 1,
           attribute_value := ie.2.2.1, description := ie.2.2.2 } : MonthlyRow))
        = fun ie : Nat × MonthEntry => ie.1 + 1 := rfl
    rw [h2]
    have h3 : (fun ie : Nat × MonthEntry => ie.1 + 1)
        = (fun i => i + 1) ∘ (Prod.fst : Nat × MonthEntry → Nat) := rfl
    rw [h3, ← List.map_map, List.enum_map_fst, hlen p hp]
  refine ⟨idA, hmem, hfilter, hmonths, ?_⟩
  intro m h1m hm12
  have hmm : m ∈ ((weatherValues idCity (weatherAttrs db weather) weather).filter
      fun r => r.id_attribute = idA).map fun r => r.month_number := by
    rw [hmonths]
    refine List.mem_map.mpr ⟨m - 1, List.mem_range.mpr (by omega), by omega⟩
  rcases List.mem_map.mp hmm with ⟨r, hrf, hrm⟩
  have hrW : r ∈ weatherValues idCity (weatherAttrs db weather) weather :=
    List.mem_of_mem_filter hrf
  have hkeyr : mwKey r = (idCity, idA, m) := by
    rw [hfilter] at hrf
    rcases List.mem_map.mp hrf with ⟨ie, _, hrr⟩
    rw [← hrr] at hrm ⊢
    simp only [mwKey] at hrm ⊢
    rw [← hrm]
  have hWkeys : ((weatherValues idCity (weatherAttrs db weather) weather).map mwKey).Nodup := by
    unfold weatherValues
    rw [List.map_flatMap, List.nodup_flatMap]
    constructor
    · intro ia _
      rw [List.map_map]
      have h2 : (mwKey ∘ fun ie : Nat × MonthEntry =>
          ({ id_city := idCity, id_attribute := ia.1, month_number := ie.1 + 1,
             attribute_value := ie.2.2.1, description := ie.2.2.2 } : MonthlyRow))
          = (fun i : Nat => ((idCity, ia.1, i + 1) : Nat × Nat × Nat)) ∘ Prod.fst := rfl
      rw [h2, ← List.map_map, List.enum_map_fst]
      refine List.Nodup.map ?_ (List.nodup_range _)
      intro a b hab
      simp only [Prod.mk.injEq] at hab
      omega
    · have hpw : List.Pairwise (fun ia ib : Nat × Val => ia.1 ≠ ib.1)
          (weatherAttrs db weather) := by
        have h2 := hidsnodup
        rw [List.Nodup, List.pairwise_map] at h2
        exact h2
      refine hpw.imp ?_
      intro ia ib hne
      intro x hx1 hx2
      rcases List.mem_map.mp hx1 with ⟨r1, hr1, hk1⟩
      rcases List.mem_map.mp hx2 with ⟨r2, hr2, hk2⟩
      rcases List.mem_map.mp hr1 with ⟨ie1, _, he1⟩
      rcases List.mem_map.mp hr2 with ⟨ie2, _, he2⟩
      rw [← he1] at hk1
      rw [← he2] at hk2
      simp only [mwKey] at hk1 hk2
      rw [← hk2, Prod.mk.injEq, Prod.mk.injEq] at hk1
      exact hne hk1.2.1
  have hset : Settled mwKey
      ((weatherValues idCity (weatherAttrs db weather) weather).foldl
        (upsertBy mwKey mwUpd) db.monthly_weathers_attributes) r :=
    foldl_upsertBy_settles mwKey mwUpd _ _ r (fun e r2 h => mwUpd_eq e r2 h)
      (fun e r2 => mwKey_upd e r2) hWkeys hrW
  have hfinnodup : (((weatherValues idCity (weatherAttrs db weather) weather).foldl
      (upsertBy mwKey mwUpd) db.monthly_weathers_attributes).map mwKey).Nodup :=
    foldl_upsertBy_keys_nodup mwKey mwUpd _ _ (fun e r2 => mwKey_upd e r2) hmono
  have hcount := length_filter_key_eq_one mwKey _ r hfinnodup hset
  rw [hkeyr] at hcount
  exact hcount

/-- C8 (witness): on the concrete record whose Weather tab holds one
attribute with a 12-month series, the persisted table holds exactly one row
for month 12 of that attribute. -/
theorem upsert_weather_months_witness :
    ((upsertWeather emptyDB 1 exDetailsWeather.weather).monthly_weathers_attributes.filter
      fun e => mwKey e = (1, 1, 12)).length = 1 := by
  obtain ⟨idA, h1, h2, h3, h4⟩ := upsert_weather_months emptyDB 1 exDetailsWeather.weather
    (by decide) (by decide) (by decide) (by decide)
    ("Humidity", (List.range 12).map fun i =>
      ((Val.str "m", Val.int (Int.ofNat i), Val.str "d") : MonthEntry)) (by decide)
  have h5 : (idA, Val.str "Humidity") ∈ [((1 : Nat), Val.str "Humidity")] := h1
  have hidA : idA = 1 := by
    rw [List.mem_singleton, Prod.mk.injEq] at h5
    exact h5.1
  subst hidA
  exact h4 12 (by decide) (by decide)

/-! ## Relationship resolution (C7) -/

theorem sqlEq_str_ne (a b : String) (h : a ≠ b) : sqlEq (.str a) (.str b) = false := by
  cases hsq : sqlEq (.str a) (.str b) with
  | true =>
    have h2 := sqlEq_true_str _ _ hsq
    cases h2
    exact absurd rfl h
  | false => rfl

/-- `_upsert_and_get_id` on a single-column `name` key never introduces a row
named `nm` when the dict names something else. -/
theorem upsert_preserves_name_absent (t : Table) (values : List (String × Val)) (nm s : String)
    (hnodup : (values.map Prod.fst).Nodup)
    (hname : ("name", Val.str s) ∈ values)
    (hsne : s ≠ nm)
    (habs : ∀ r ∈ t.rows, getCol r.2 "name" ≠ Val.str nm) :
    ∀ r ∈ (upsertAndGetId t values (some ["name"]) ["name"]).table.rows,
      getCol r.2 "name" ≠ Val.str nm := by
  intro r hr
  cases hsel : selectFirst t (filtersOf values (some ["name"])) with
  | some pr =>
    rcases pr with ⟨rowId, row⟩
    have e1 : upsertAndGetId t values (some ["name"]) ["name"]
        = if values.any (fun cv => pyNe (getCol row cv.1) cv.2) then
            { id := rowId, table := updateById t rowId values, updated := true, inserted := false }
          else { id := rowId, table := t, updated := false, inserted := false } := by
      unfold upsertAndGetId
      rw [hsel]
    rw [e1] at hr
    by_cases hany : (values.any fun cv => pyNe (getCol row cv.1) cv.2) = true
    · rw [if_pos hany] at hr
      have hr2 : r ∈ t.rows.map
          (fun r => if r.1 = rowId then (r.1, applyVals r.2 values) else r) := hr
      rcases List.mem_map.mp hr2 with ⟨r0, hr0, hfr⟩
      by_cases hid : r0.1 = rowId
      · rw [if_pos hid] at hfr
        rw [← hfr]
        show getCol (applyVals r0.2 values) "name" ≠ Val.str nm
        rw [getCol_applyVals_mem values r0.2 "name" (Val.str s) hnodup hname]
        intro e
        exact hsne (by cases e; rfl)
      · rw [if_neg hid] at hfr
        rw [← hfr]
        exact habs r0 hr0
    · rw [if_neg hany] at hr
      exact habs r hr
  | none =>
    have e1 : (upsertAndGetId t values (some ["name"]) ["name"]).table
        = (insertIgnore t ["name"] values).1 := by
      unfold upsertAndGetId
      rw [hsel]
    rw [e1] at hr
    rcases insertIgnore_cases t ["name"] values with ⟨_, heq⟩ | ⟨_, heq⟩
    · rw [heq] at hr
      exact habs r hr
    · rw [heq] at hr
      rcases List.mem_append.mp hr with h1 | h1
      · exact habs r h1
      · rw [List.mem_singleton] at h1
        rw [h1]
        show getCol values "name" ≠ Val.str nm
        rw [getCol_mem_nodup values "name" (Val.str s) hnodup hname]
        intro e
        exact hsne (by cases e; rfl)

/-- The city upsert cannot create a row named differently from the record. -/
theorem upsertCity_name_absent (t : Table) (d : Details) (idCo : Nat) (nm : String)
    (hne : nm ≠ d.city) (habs : ∀ r ∈ t.rows, getCol r.2 "name" ≠ Val.str nm) :
    ∀ r ∈ (upsertAndGetId t (cityValues d idCo) (some ["name"]) ["name"]).table.rows,
      getCol r.2 "name" ≠ Val.str nm :=
  upsert_preserves_name_absent t (cityValues d idCo) nm d.city (by
      show (["name", "city_rank", "id_country"] : List String).Nodup
      decide)
    (List.mem_cons_self _ _) (fun e => hne e.symm) habs

/-- The geo phase leaves no cities row named `nm` when the record is about a
different city and none existed before. -/
theorem upsertGeo_name_absent (db : DB) (d : Details) (nm : String) (hne : nm ≠ d.city)
    (habs : ∀ r ∈ db.cities.rows, getCol r.2 "name" ≠ Val.str nm) :
    ∀ r ∈ (upsertGeo db d).2.cities.rows, getCol r.2 "name" ≠ Val.str nm :=
  upsertCity_name_absent db.cities d _ nm hne habs

/-- The batch of bare name inserts of `_insert_relationships`, run on a table
with no row named `nm`, with `nm` among the (deduplicated) names: exactly one
bare row named `nm` comes out. -/
theorem insertFold_nameRow_fresh (t : Table) (names : List String) (nm : String)
    (hnodup : names.Nodup) (hmem : nm ∈ names)
    (habs : ∀ r ∈ t.rows, getCol r.2 "name" ≠ Val.str nm) :
    ∃ idR, (idR, nameRow nm) ∈ (insertFold ["name"] nameRow t names).rows ∧
      ((insertFold ["name"] nameRow t names).rows.filter
        (fun r => sqlEq (getCol r.2 "name") (Val.str nm))).length = 1 := by
  induction names generalizing t with
  | nil => simp at hmem
  | cons x rest ih =>
    have hstep : insertFold ["name"] nameRow t (x :: rest)
        = insertFold ["name"] nameRow (insertIgnore t ["name"] (nameRow x)).1 rest := rfl
    rw [List.nodup_cons] at hnodup
    rcases List.mem_cons.mp hmem with h1 | h1
    · subst h1
      have hnoconf : (t.rows.any fun r => conflicts ["name"] r.2 (nameRow nm)) = false := by
        rw [List.any_eq_false]
        intro r hr
        rw [conflicts_nameRow]
        intro h2
        exact habs r hr (sqlEq_true_str _ _ h2)
      rcases insertIgnore_cases t ["name"] (nameRow nm) with ⟨hc, _⟩ | ⟨_, heq⟩
      · rw [hnoconf] at hc
        cases hc
      · rw [hstep, heq]
        rcases insertFold_rows ["name"] nameRow
          ({ rows := t.rows ++ [(t.nextId, nameRow nm)], nextId := t.nextId + 1 } : Table) rest
          with ⟨ext, hrows, hshape, _, _⟩
        have ha : t.rows.filter (fun r => sqlEq (getCol r.2 "name") (Val.str nm)) = [] := by
          rw [List.filter_eq_nil_iff]
          intro r hr h2
          exact habs r hr (sqlEq_true_str _ _ h2)
        have hp : sqlEq (getCol (nameRow nm) "name") (Val.str nm) = true := by
          rw [getCol_nameRow]
          exact sqlEq_refl _ (by simp)
        have hfil2 : ext.filter (fun r => sqlEq (getCol r.2 "name") (Val.str nm)) = [] := by
          rw [List.filter_eq_nil_iff]
          intro r hr h2
          rcases hshape r hr with ⟨y, hy, hmk⟩
          rw [hmk, getCol_nameRow] at h2
          have h3 := sqlEq_true_str _ _ h2
          have hy2 : y = nm := by
            cases h3
            rfl
          rw [hy2] at hy
          exact hnodup.1 hy
        refine ⟨t.nextId, ?_, ?_⟩
        · rw [hrows]
          refine List.mem_append_left _ ?_
          show (t.nextId, nameRow nm) ∈ t.rows ++ [(t.nextId, nameRow nm)]
          exact List.mem_append_right _ (List.mem_singleton_self _)
        · rw [hrows]
          show (((t.rows ++ [(t.nextId, nameRow nm)]) ++ ext).filter
            (fun r => sqlEq (getCol r.2 "name") (Val.str nm))).length = 1
          rw [List.filter_append, List.filter_append, ha, hfil2, List.nil_append,
            List.append_nil]
          have hb : [(t.nextId, nameRow nm)].filter
              (fun r => sqlEq (getCol r.2 "name") (Val.str nm)) = [(t.nextId, nameRow nm)] := by
            simp [List.filter_cons, hp]
          rw [hb]
          rfl
    · have hxne : x ≠ nm := by
        intro e
        rw [e] at hnodup
        exact hnodup.1 h1
      have habs1 : ∀ r ∈ (insertIgnore t ["name"] (nameRow x)).1.rows,
          getCol r.2 "name" ≠ Val.str nm := by
        rcases insertIgnore_cases t ["name"] (nameRow x) with ⟨_, heq⟩ | ⟨_, heq⟩
        · rw [heq]
          exact habs
        · rw [heq]
          intro r hr
          rcases List.mem_append.mp hr with h2 | h2
          · exact habs r h2
          · rw [List.mem_singleton] at h2
            rw [h2]
            show getCol (nameRow x) "name" ≠ _
            rw [getCol_nameRow]
            intro e
            exact hxne (by cases e; rfl)
      rw [hstep]
      exact ih _ hnodup.2 h1 habs1

/-- `_insert_relationships` on a state with no row named `nm`, for a record
whose `Near` list contains `nm`: a single bare name-only row named `nm` is
created and the near-typed edge to it is inserted. -/
theorem insertRelationships_fresh (db2 : DB) (idCity : Nat) (d : Details) (nm : String)
    (hnear : nm ∈ d.near)
    (habs : ∀ r ∈ db2.cities.rows, getCol r.2 "name" ≠ Val.str nm) :
    ∃ idR, (idR, nameRow nm) ∈ (insertRelationships db2 idCity d).1.cities.rows ∧
      ((insertRelationships db2 idCity d).1.cities.rows.filter
        (fun r => sqlEq (getCol r.2 "name") (Val.str nm))).length = 1 ∧
      ({ id_city := idCity, id_related_city := idR, relType := 0 } : RelRow)
        ∈ (insertRelationships db2 idCity d).1.cities_relationships := by
  have hmemnames : nm ∈ relatedNames d := by
    unfold relatedNames
    rw [List.mem_dedup]
    exact List.mem_append_left _ (List.mem_append_left _ hnear)
  have hnodupnames : (relatedNames d).Nodup := List.nodup_dedup _
  rcases insertFold_nameRow_fresh db2.cities (relatedNames d) nm hnodupnames hmemnames habs
    with ⟨idR, hmem, hcount⟩
  have hnonempty : ¬((relatedNames d).isEmpty = true) := by
    cases hh : relatedNames d with
    | nil =>
      rw [hh] at hmemnames
      simp at hmemnames
    | cons a l => simp
  have e1 : insertRelationships db2 idCity d
      = ({ db2 with
            cities := insertFold ["name"] nameRow db2.cities (relatedNames d)
            cities_relationships :=
              (relEdges idCity d (relatedSelect
                (insertFold ["name"] nameRow db2.cities (relatedNames d))
                (relatedNames d))).foldl insertIgnoreRow db2.cities_relationships }, false) := by
    unfold insertRelationships
    rw [if_neg hnonempty]
  rw [e1]
  refine ⟨idR, hmem, hcount, ?_⟩
  have hrel : (idR, nameRow nm) ∈ relatedSelect
      (insertFold ["name"] nameRow db2.cities (relatedNames d)) (relatedNames d) := by
    rw [relatedSelect, List.mem_filter]
    refine ⟨hmem, ?_⟩
    rw [List.any_eq_true]
    refine ⟨nm, hmemnames, ?_⟩
    show sqlEq (getCol (nameRow nm) "name") (Val.str nm) = true
    rw [getCol_nameRow]
    exact sqlEq_refl _ (by simp)
  have hblock : ({ id_city := idCity, id_related_city := idR, relType := 0 } : RelRow)
      ∈ (relTypeLists d).enum.filterMap (fun itl =>
        if valIn (getCol (nameRow nm) "name") itl.2 then
          some ({ id_city := idCity, id_related_city := idR, relType := itl.1 } : RelRow)
        else none) := by
    rw [List.mem_filterMap]
    refine ⟨(0, d.near), ?_, ?_⟩
    · have he : (relTypeLists d).enum = [(0, d.near), (1, d.next), (2, d.similar)] := rfl
      rw [he]
      exact List.mem_cons_self _ _
    · rw [getCol_nameRow]
      have hin : valIn (Val.str nm) d.near = true := by
        show d.near.contains nm = true
        exact List.elem_eq_true_of_mem hnear
      rw [hin]
      simp
  have hedge : ({ id_city := idCity, id_related_city := idR, relType := 0 } : RelRow)
      ∈ relEdges idCity d (relatedSelect
        (insertFold ["name"] nameRow db2.cities (relatedNames d)) (relatedNames d)) := by
    rw [relEdges, List.mem_flatMap]
    exact ⟨(idR, nameRow nm), hrel, hblock⟩
  exact mem_foldl_insertIgnoreRow_of_mem_list _ _ _ hedge

/-- C7 (counterexample).  A record that lists its own city name ("Porto") as
a near relation, run against an empty schema: after `insert_city_info` there
is exactly one cities row named Porto and the near edge exists, but the row
is the full city row created by the city upsert — its `city_rank` is 1, not
NULL — so it is not a bare name-only row as the claim states. -/
theorem self_related_city_not_bare :
    (((insertCityInfo emptyDB exDetailsSelf).1.cities.rows.filter
        fun r => sqlEq (getCol r.2 "name") (Val.str "Porto")).map
      fun r => getCol r.2 "city_rank") = [Val.int 1] ∧
    ∀ r ∈ (insertCityInfo emptyDB exDetailsSelf).1.cities.rows, r.2 ≠ nameRow "Porto" := by
  refine ⟨by decide, by decide⟩

/-- C7 (amended).  For every persisted record whose near-relation list
contains an entity name, different from the record's own city name, that does
not yet exist in the cities table: after `insert_city_info` returns there is
exactly one cities row with that name, a bare name-only row, and a directed
`cities_relationships` edge from the persisted city to that row with the near
relation type (stored as type index 0). -/
theorem related_city_created_with_edge (db : DB) (d : Details) (nm : String)
    (hnear : nm ∈ d.near) (hne : nm ≠ d.city)
    (habs : ∀ r ∈ db.cities.rows, getCol r.2 "name" ≠ Val.str nm) :
    ∃ idR, (idR, nameRow nm) ∈ (insertCityInfoCore db d).2.1.cities.rows ∧
      ((insertCityInfoCore db d).2.1.cities.rows.filter
        (fun r => sqlEq (getCol r.2 "name") (Val.str nm))).length = 1 ∧
      ({ id_city := (insertCityInfoCore db d).1, id_related_city := idR, relType := 0 } : RelRow)
        ∈ (insertCityInfoCore db d).2.1.cities_relationships := by
  have habs3 := upsertGeo_name_absent db d nm hne habs
  have habs9 : ∀ r ∈ (insertCityInfoNoRel db d).cities.rows,
      getCol r.2 "name" ≠ Val.str nm := by
    have e : (insertCityInfoNoRel db d).cities = (upsertGeo db d).2.cities := rfl
    rw [e]
    exact habs3
  exact insertRelationships_fresh (insertCityInfoNoRel db d) (upsertGeo db d).1 d nm hnear habs9

/-- C7 (witness for the amended theorem): the sample record names Porto,
not yet present, as near; the bare row and the edge appear. -/
theorem related_city_created_with_edge_witness :
    ∃ idR, (idR, nameRow "Porto") ∈ (insertCityInfoCore emptyDB exDetails).2.1.cities.rows ∧
      ((insertCityInfoCore emptyDB exDetails).2.1.cities.rows.filter
        (fun r => sqlEq (getCol r.2 "name") (Val.str "Porto"))).length = 1 ∧
      ({ id_city := (insertCityInfoCore emptyDB exDetails).1, id_related_city := idR,
          relType := 0 } : RelRow)
        ∈ (insertCityInfoCore emptyDB exDetails).2.1.cities_relationships :=
  related_city_created_with_edge emptyDB exDetails "Porto" (by decide) (by decide) (by decide)

/-! ## Idempotence machinery (C1): stability of every step under a re-run -/

theorem insertIgnore_rows_ext (t : Table) (k : List String) (cols : Row) :
    ∃ ext, (insertIgnore t k cols).1.rows = t.rows ++ ext := by
  rcases insertIgnore_cases t k cols with ⟨_, heq⟩ | ⟨_, heq⟩
  · exact ⟨[], by rw [heq, List.append_nil]⟩
  · exact ⟨[(t.nextId, cols)], by rw [heq]⟩

theorem insertRelationships_snd (db : DB) (idc : Nat) (d : Details) :
    (insertRelationships db idc d).2 = (relatedNames d).isEmpty := by
  unfold insertRelationships
  split
  · next h => simp [h]
  · next h => simp [Bool.eq_false_iff.mpr h]

theorem insertRelationships_cities (db : DB) (idc : Nat) (d : Details) :
    (insertRelationships db idc d).1.cities
      = insertFold ["name"] nameRow db.cities (relatedNames d) := by
  unfold insertRelationships
  split <;> rfl

theorem insertRelationships_continents (db : DB) (idc : Nat) (d : Details) :
    (insertRelationships db idc d).1.continents = db.continents := by
  unfold insertRelationships
  split <;> rfl

theorem insertRelationships_countries (db : DB) (idc : Nat) (d : Details) :
    (insertRelationships db idc d).1.countries = db.countries := by
  unfold insertRelationships
  split <;> rfl

theorem insertRelationships_tabs (db : DB) (idc : Nat) (d : Details) :
    (insertRelationships db idc d).1.tabs = db.tabs := by
  unfold insertRelationships
  split <;> rfl

theorem insertRelationships_attributes (db : DB) (idc : Nat) (d : Details) :
    (insertRelationships db idc d).1.attributes = db.attributes := by
  unfold insertRelationships
  split <;> rfl

theorem insertRelationships_city_attributes (db : DB) (idc : Nat) (d : Details) :
    (insertRelationships db idc d).1.city_attributes = db.city_attributes := by
  unfold insertRelationships
  split <;> rfl

theorem insertRelationships_photos (db : DB) (idc : Nat) (d : Details) :
    (insertRelationships db idc d).1.photos = db.photos := by
  unfold insertRelationships
  split <;> rfl

theorem insertRelationships_pros (db : DB) (idc : Nat) (d : Details) :
    (insertRelationships db idc d).1.pros_and_cons = db.pros_and_cons := by
  unfold insertRelationships
  split <;> rfl

theorem insertRelationships_reviews (db : DB) (idc : Nat) (d : Details) :
    (insertRelationships db idc d).1.reviews = db.reviews := by
  unfold insertRelationships
  split <;> rfl

theorem insertRelationships_monthly (db : DB) (idc : Nat) (d : Details) :
    (insertRelationships db idc d).1.monthly_weathers_attributes
      = db.monthly_weathers_attributes := by
  unfold insertRelationships
  split <;> rfl

theorem insertRelationships_rels_nonempty (db : DB) (idc : Nat) (d : Details)
    (h : ¬((relatedNames d).isEmpty = true)) :
    (insertRelationships db idc d).1.cities_relationships
      = (relEdges idc d (relatedSelect (insertFold ["name"] nameRow db.cities (relatedNames d))
          (relatedNames d))).foldl insertIgnoreRow db.cities_relationships := by
  unfold insertRelationships
  rw [if_neg h]

/-- Re-running `_upsert_tab_and_attributes` with the same tab and attribute
names, after the tables have only grown — the tabs table by appended rows,
the attributes table by rows of other tabs — selects the same attribute list
and changes nothing. -/
theorem upsertTabAndAttributes_restable (dbp dbf : DB) (T : String) (NS : List String)
    (tExt aExt : List (Nat × Row))
    (htf : dbf.tabs.rows
      = ((insertIgnore dbp.tabs ["name"] (nameRow T)).1).rows ++ tExt)
    (haf : dbf.attributes.rows
      = (insertFold ["name", "id_tab"]
          (attrRow (tabIdOf (insertIgnore dbp.tabs ["name"] (nameRow T)).1 T))
          dbp.attributes NS).rows ++ aExt)
    (haExt : ∀ r ∈ aExt, sqlEq (getCol r.2 "id_tab")
        (Val.int (Int.ofNat (tabIdOf (insertIgnore dbp.tabs ["name"] (nameRow T)).1 T)))
      = false) :
    upsertTabAndAttributes dbf T NS = ((upsertTabAndAttributes dbp T NS).1, dbf) := by
  have hconf1 : (((insertIgnore dbp.tabs ["name"] (nameRow T)).1).rows.any
      fun r => conflicts ["name"] r.2 (nameRow T)) = true :=
    insertIgnore_conflict_present dbp.tabs ["name"] (nameRow T) (conflicts_nameRow_self T)
  have hconf2 : (dbf.tabs.rows.any fun r => conflicts ["name"] r.2 (nameRow T)) = true := by
    rw [htf, List.any_append, hconf1]
    rfl
  have hnoop1 : (insertIgnore dbf.tabs ["name"] (nameRow T)).1 = dbf.tabs :=
    insertIgnore_noop_of_conflict _ _ _ hconf2
  rcases insertIgnore_name_found dbp.tabs T with ⟨pr, hpr⟩
  have hid1 : tabIdOf (insertIgnore dbp.tabs ["name"] (nameRow T)).1 T = pr.1 := by
    unfold tabIdOf
    rw [hpr]
    rfl
  have hid2 : tabIdOf dbf.tabs T = pr.1 := by
    unfold tabIdOf
    have h2 : dbf.tabs.rows.find? (fun r => sqlEq (getCol r.2 "name") (Val.str T)) = some pr := by
      rw [htf]
      exact find?_append_some _ _ _ _ hpr
    rw [h2]
    rfl
  have hidf : tabIdOf dbf.tabs T
      = tabIdOf (insertIgnore dbp.tabs ["name"] (nameRow T)).1 T := by
    rw [hid1, hid2]
  have hattrconf : ∀ a ∈ NS, (dbf.attributes.rows.any fun r => conflicts ["name", "id_tab"] r.2
      (attrRow (tabIdOf (insertIgnore dbp.tabs ["name"] (nameRow T)).1 T) a)) = true := by
    intro a ha
    rw [haf, List.any_append]
    rw [insertFold_conflict_present ["name", "id_tab"] _ dbp.attributes NS a ha
      (conflicts_attrRow_self _ a)]
    rfl
  have hnoop2 : insertFold ["name", "id_tab"]
      (attrRow (tabIdOf (insertIgnore dbp.tabs ["name"] (nameRow T)).1 T)) dbf.attributes NS
      = dbf.attributes :=
    insertFold_noop _ _ _ _ hattrconf
  have hsel : selectAttrs dbf.attributes
      (tabIdOf (insertIgnore dbp.tabs ["name"] (nameRow T)).1 T)
      = selectAttrs (insertFold ["name", "id_tab"]
          (attrRow (tabIdOf (insertIgnore dbp.tabs ["name"] (nameRow T)).1 T))
          dbp.attributes NS)
        (tabIdOf (insertIgnore dbp.tabs ["name"] (nameRow T)).1 T) := by
    unfold selectAttrs
    rw [haf, List.filter_append]
    have hext : aExt.filter (fun r => sqlEq (getCol r.2 "id_tab")
        (Val.int (Int.ofNat (tabIdOf (insertIgnore dbp.tabs ["name"] (nameRow T)).1 T)))) = [] := by
      rw [List.filter_eq_nil_iff]
      intro r hr h2
      rw [haExt r hr] at h2
      cases h2
    rw [hext, List.append_nil]
  show (selectAttrs (insertFold ["name", "id_tab"] (attrRow (tabIdOf
      (insertIgnore dbf.tabs ["name"] (nameRow T)).1 T)) dbf.attributes NS)
      (tabIdOf (insertIgnore dbf.tabs ["name"] (nameRow T)).1 T),
    { dbf with
        tabs := (insertIgnore dbf.tabs ["name"] (nameRow T)).1
        attributes := insertFold ["name", "id_tab"] (attrRow (tabIdOf
          (insertIgnore dbf.tabs ["name"] (nameRow T)).1 T)) dbf.attributes NS })
    = ((upsertTabAndAttributes dbp T NS).1, dbf)
  rw [hnoop1, hidf, hnoop2, hsel]
  rfl

theorem continentValues_keys (d : Details) :
    (continentValues d).map Prod.fst = ["name"] := rfl

theorem countryValues_keys (d : Details) (i : Nat) :
    (countryValues d i).map Prod.fst = ["name", "id_continent"] := rfl

theorem cityValues_keys (d : Details) (i : Nat) :
    (cityValues d i).map Prod.fst = ["name", "city_rank", "id_country"] := rfl

theorem continentValues_name (d : Details) :
    getCol (continentValues d) "name" = Val.str d.continent := by
  show getCol [("name", Val.str d.continent)] "name" = Val.str d.continent
  exact getCol_cons_self _ _ _

theorem countryValues_name (d : Details) (i : Nat) :
    getCol (countryValues d i) "name" = Val.str d.country := by
  show getCol (("name", Val.str d.country) :: _) "name" = Val.str d.country
  exact getCol_cons_self _ _ _

theorem cityValues_name (d : Details) (i : Nat) :
    getCol (cityValues d i) "name" = Val.str d.city := by
  show getCol (("name", Val.str d.city) :: _) "name" = Val.str d.city
  exact getCol_cons_self _ _ _

/-- Re-running the geo phase after the three tables have only been extended
(the cities table by appended bare relationship rows) returns the same city
id and changes nothing. -/
theorem upsertGeo_restable (db dbf : DB) (d : Details) (ext : List (Nat × Row))
    (hcont : dbf.continents = (upsertGeo db d).2.continents)
    (hcoun : dbf.countries = (upsertGeo db d).2.countries)
    (hcit : dbf.cities.rows = (upsertGeo db d).2.cities.rows ++ ext) :
    upsertGeo dbf d = ((upsertGeo db d).1, dbf) := by
  have hrc := upsert_restable db.continents dbf.continents (continentValues d) "name" []
    (by rw [continentValues_keys]; decide) (by rw [continentValues_keys]; decide)
    (by rw [continentValues_name]; simp)
    (by
      rw [List.append_nil]
      show dbf.continents.rows = (upsertGeo db d).2.continents.rows
      rw [hcont])
  have hrco := upsert_restable db.countries dbf.countries
    (countryValues d (upsertAndGetId db.continents (continentValues d)
      (some ["name"]) ["name"]).id) "name" []
    (by rw [countryValues_keys]; decide) (by rw [countryValues_keys]; decide)
    (by rw [countryValues_name]; simp)
    (by
      rw [List.append_nil]
      show dbf.countries.rows = (upsertGeo db d).2.countries.rows
      rw [hcoun])
  have hrci := upsert_restable db.cities dbf.cities
    (cityValues d (upsertAndGetId db.countries
      (countryValues d (upsertAndGetId db.continents (continentValues d)
        (some ["name"]) ["name"]).id) (some ["name"]) ["name"]).id) "name" ext
    (by rw [cityValues_keys]; decide) (by rw [cityValues_keys]; decide)
    (by rw [cityValues_name]; simp)
    (by
      show dbf.cities.rows = (upsertGeo db d).2.cities.rows ++ ext
      exact hcit)
  simp only [upsertGeo, hrc, hrco, hrci]

theorem sqlEq_true_int (v : Val) (n : Int) (h : sqlEq v (.int n) = true) : v = .int n := by
  cases v with
  | null => simp [sqlEq] at h
  | str s => simp [sqlEq] at h
  | int m =>
    simp only [sqlEq] at h
    have h2 : Val.int m = Val.int n := by
      have := of_decide_eq_true (by exact h)
      exact this
    exact h2

theorem sqlEq_int_ne (i j : Nat) (h : i ≠ j) :
    sqlEq (.int (Int.ofNat i)) (.int (Int.ofNat j)) = false := by
  cases hsq : sqlEq (.int (Int.ofNat i)) (.int (Int.ofNat j)) with
  | true =>
    have h2 := sqlEq_true_int _ _ hsq
    have h3 : Int.ofNat i = Int.ofNat j := by cases h2; rfl
    exact absurd (Int.ofNat.inj h3) h
  | false => rfl

/-- The id a tab name resolves to is unchanged when the tabs table is only
extended by appended rows, once the name already hits a row. -/
theorem tabIdOf_stable (t1 t2 : Table) (n : String) (ext : List (Nat × Row)) (pr : Nat × Row)
    (hext : t2.rows = t1.rows ++ ext)
    (hfound : t1.rows.find? (fun r => sqlEq (getCol r.2 "name") (Val.str n)) = some pr) :
    tabIdOf t2 n = tabIdOf t1 n := by
  unfold tabIdOf
  rw [hfound, hext, find?_append_some _ _ _ _ hfound]

/-- A batch of attribute inserts for one tab appends only rows whose `id_tab`
column carries that tab's id. -/
theorem insertFold_attrRow_ext (a1 : Table) (i : Nat) (NS : List String) :
    ∃ ext, (insertFold ["name", "id_tab"] (attrRow i) a1 NS).rows = a1.rows ++ ext ∧
      ∀ r ∈ ext, getCol r.2 "id_tab" = .int (Int.ofNat i) := by
  rcases insertFold_rows ["name", "id_tab"] (attrRow i) a1 NS with ⟨ext, h1, h2, _, _⟩
  refine ⟨ext, h1, ?_⟩
  intro r hr
  rcases h2 r hr with ⟨a, _, hra⟩
  rw [hra, getCol_attrRow_idtab]

/-- Every selected attribute id comes from a table row tagged with the
selected tab id. -/
theorem selectAttrs_mem_row (a1 : Table) (i : Nat) (p : Nat × Val)
    (hp : p ∈ selectAttrs a1 i) :
    ∃ row, (p.1, row) ∈ a1.rows ∧ sqlEq (getCol row "id_tab") (.int (Int.ofNat i)) = true := by
  unfold selectAttrs at hp
  rcases List.mem_map.mp hp with ⟨r, hr, hpr⟩
  rw [List.mem_filter] at hr
  refine ⟨r.2, ?_, hr.2⟩
  have h1 : p.1 = r.1 := by rw [← hpr]
  rw [h1]
  exact hr.1

/-- Attribute ids selected for two different tab ids, from two snapshots of
an attributes table with sound ids where the second only extends the first,
never coincide. -/
theorem selectAttrs_id_disjoint (a1 a2 : Table) (i1 i2 : Nat) (ext : List (Nat × Row))
    (hext : a2.rows = a1.rows ++ ext) (hnodup : (a2.rows.map Prod.fst).Nodup)
    (hne : i1 ≠ i2) (p q : Nat × Val)
    (hp : p ∈ selectAttrs a1 i1) (hq : q ∈ selectAttrs a2 i2) : p.1 ≠ q.1 := by
  rcases selectAttrs_mem_row a1 i1 p hp with ⟨row1, hm1, ht1⟩
  rcases selectAttrs_mem_row a2 i2 q hq with ⟨row2, hm2, ht2⟩
  have hm1b : (p.1, row1) ∈ a2.rows := by
    rw [hext]
    exact List.mem_append_left _ hm1
  intro he
  rw [he] at hm1b
  have hrows : ((q.1, row1) : Nat × Row) = (q.1, row2) :=
    List.inj_on_of_nodup_map hnodup hm1b hm2 rfl
  have hroweq : row1 = row2 := by cases hrows; rfl
  rw [hroweq] at ht1
  have h1 : getCol row2 "id_tab" = .int (Int.ofNat i1) := sqlEq_true_int _ _ ht1
  have h2 : getCol row2 "id_tab" = .int (Int.ofNat i2) := sqlEq_true_int _ _ ht2
  rw [h1] at h2
  have h3 : Int.ofNat i1 = Int.ofNat i2 := by cases h2; rfl
  exact hne (Int.ofNat.inj h3)

theorem filterMap_map_sublist {α β γ : Type} (l : List α) (f : α → Option β)
    (g : β → γ) (h : α → γ) (hg : ∀ a b, f a = some b → g b = h a) :
    List.Sublist ((l.filterMap f).map g) (l.map h) := by
  induction l with
  | nil => simp
  | cons a rest ih =>
    cases hfa : f a with
    | none =>
      rw [List.map_cons, List.filterMap_cons_none hfa]
      exact List.Sublist.cons (h a) ih
    | some b =>
      rw [List.map_cons, List.filterMap_cons_some hfa, List.map_cons, hg a b hfa]
      exact List.Sublist.cons₂ (h a) ih

theorem cityAttrValues_ids_sublist (idCity : Nat) (attrs : List (Nat × Val))
    (ti : List (String × TabEntry)) :
    List.Sublist ((cityAttrValues idCity attrs ti).map fun r => r.id_attribute)
      (attrs.map Prod.fst) := by
  unfold cityAttrValues
  refine filterMap_map_sublist attrs _ (fun r : CityAttrRow => r.id_attribute) Prod.fst ?_
  intro a b hab
  rcases Option.map_eq_some'.mp hab with ⟨info, _, hmk⟩
  rw [← hmk]

theorem cityAttrValues_caKeys_nodup (idCity : Nat) (attrs : List (Nat × Val))
    (ti : List (String × TabEntry)) (hids : (attrs.map Prod.fst).Nodup) :
    ((cityAttrValues idCity attrs ti).map caKey).Nodup := by
  have h1 : ((cityAttrValues idCity attrs ti).map fun r => r.id_attribute).Nodup :=
    hids.sublist (cityAttrValues_ids_sublist idCity attrs ti)
  refine List.Nodup.of_map Prod.snd ?_
  rw [List.map_map]
  exact h1

theorem cityAttrValues_mem (idCity : Nat) (attrs : List (Nat × Val))
    (ti : List (String × TabEntry)) (r : CityAttrRow)
    (hr : r ∈ cityAttrValues idCity attrs ti) :
    r.id_city = idCity ∧ ∃ p ∈ attrs, r.id_attribute = p.1 := by
  unfold cityAttrValues at hr
  rcases List.mem_filterMap.mp hr with ⟨ia, hia, hf⟩
  have hf2 : (lookupInfo ti ia.2).map (fun info =>
      ({ id_city := idCity, id_attribute := ia.1, description := info.1,
         attribute_value := info.2.1, url := info.2.2.getD .null } : CityAttrRow)) = some r := hf
  rcases Option.map_eq_some'.mp hf2 with ⟨info, _, hmk⟩
  rw [← hmk]
  exact ⟨rfl, ia, hia, rfl⟩

theorem weatherValues_mwKeys_nodup (idCity : Nat) (attrs : List (Nat × Val))
    (weather : List (String × List MonthEntry))
    (hids : (attrs.map Prod.fst).Nodup) :
    ((weatherValues idCity attrs weather).map mwKey).Nodup := by
  unfold weatherValues
  rw [List.map_flatMap, List.nodup_flatMap]
  constructor
  · intro ia _
    rw [List.map_map]
    have h2 : (mwKey ∘ fun ie : Nat × MonthEntry =>
        ({ id_city := idCity, id_attribute := ia.1, month_number := ie.1 + 1,
           attribute_value := ie.2.2.1, description := ie.2.2.2 } : MonthlyRow))
        = (fun i : Nat => ((idCity, ia.1, i + 1) : Nat × Nat × Nat)) ∘ Prod.fst := rfl
    rw [h2, ← List.map_map, List.enum_map_fst]
    refine List.Nodup.map ?_ (List.nodup_range _)
    intro a b hab
    simp only [Prod.mk.injEq] at hab
    omega
  · have hpw : List.Pairwise (fun ia ib : Nat × Val => ia.1 ≠ ib.1) attrs := by
      have h2 := hids
      rw [List.Nodup, List.pairwise_map] at h2
      exact h2
    refine hpw.imp ?_
    intro ia ib hne
    intro x hx1 hx2
    rcases List.mem_map.mp hx1 with ⟨r1, hr1, hk1⟩
    rcases List.mem_map.mp hx2 with ⟨r2, hr2, hk2⟩
    rcases List.mem_map.mp hr1 with ⟨ie1, _, he1⟩
    rcases List.mem_map.mp hr2 with ⟨ie2, _, he2⟩
    rw [← he1] at hk1
    rw [← he2] at hk2
    simp only [mwKey] at hk1 hk2
    rw [← hk2, Prod.mk.injEq, Prod.mk.injEq] at hk1
    exact hne hk1.2.1

/-! ## Field projections of the pipeline steps -/

theorem upsertGeo_tabs (db : DB) (d : Details) : (upsertGeo db d).2.tabs = db.tabs := rfl

theorem upsertGeo_attributes (db : DB) (d : Details) :
    (upsertGeo db d).2.attributes = db.attributes := rfl

theorem upsertGeo_city_attributes (db : DB) (d : Details) :
    (upsertGeo db d).2.city_attributes = db.city_attributes := rfl

theorem upsertGeo_photos (db : DB) (d : Details) : (upsertGeo db d).2.photos = db.photos := rfl

theorem upsertGeo_pros (db : DB) (d : Details) :
    (upsertGeo db d).2.pros_and_cons = db.pros_and_cons := rfl

theorem upsertGeo_reviews (db : DB) (d : Details) : (upsertGeo db d).2.reviews = db.reviews := rfl

theorem upsertGeo_monthly (db : DB) (d : Details) :
    (upsertGeo db d).2.monthly_weathers_attributes = db.monthly_weathers_attributes := rfl

theorem upsertGeo_rels (db : DB) (d : Details) :
    (upsertGeo db d).2.cities_relationships = db.cities_relationships := rfl

theorem uTA_fst (db : DB) (T : String) (NS : List String) :
    (upsertTabAndAttributes db T NS).1
      = selectAttrs (insertFold ["name", "id_tab"]
          (attrRow (tabIdOf (insertIgnore db.tabs ["name"] (nameRow T)).1 T)) db.attributes NS)
        (tabIdOf (insertIgnore db.tabs ["name"] (nameRow T)).1 T) := rfl

theorem uKVT_tabs (db : DB) (i : Nat) (T : String) (ti : List (String × TabEntry)) :
    (upsertKeyValueTabInfo db i T ti).tabs = (insertIgnore db.tabs ["name"] (nameRow T)).1 := rfl

theorem uKVT_attributes (db : DB) (i : Nat) (T : String) (ti : List (String × TabEntry)) :
    (upsertKeyValueTabInfo db i T ti).attributes
      = insertFold ["name", "id_tab"]
          (attrRow (tabIdOf (insertIgnore db.tabs ["name"] (nameRow T)).1 T)) db.attributes
          (ti.map Prod.fst) := rfl

theorem uKVT_city_attributes (db : DB) (i : Nat) (T : String) (ti : List (String × TabEntry)) :
    (upsertKeyValueTabInfo db i T ti).city_attributes
      = (cityAttrValues i (upsertTabAndAttributes db T (ti.map Prod.fst)).1 ti).foldl
          (upsertBy caKey caUpd) db.city_attributes := rfl

theorem uKVT_continents (db : DB) (i : Nat) (T : String) (ti : List (String × TabEntry)) :
    (upsertKeyValueTabInfo db i T ti).continents = db.continents := rfl

theorem uKVT_countries (db : DB) (i : Nat) (T : String) (ti : List (String × TabEntry)) :
    (upsertKeyValueTabInfo db i T ti).countries = db.countries := rfl

theorem uKVT_cities (db : DB) (i : Nat) (T : String) (ti : List (String × TabEntry)) :
    (upsertKeyValueTabInfo db i T ti).cities = db.cities := rfl

theorem uKVT_photos (db : DB) (i : Nat) (T : String) (ti : List (String × TabEntry)) :
    (upsertKeyValueTabInfo db i T ti).photos = db.photos := rfl

theorem uKVT_pros (db : DB) (i : Nat) (T : String) (ti : List (String × TabEntry)) :
    (upsertKeyValueTabInfo db i T ti).pros_and_cons = db.pros_and_cons := rfl

theorem uKVT_reviews (db : DB) (i : Nat) (T : String) (ti : List (String × TabEntry)) :
    (upsertKeyValueTabInfo db i T ti).reviews = db.reviews := rfl

theorem uKVT_monthly (db : DB) (i : Nat) (T : String) (ti : List (String × TabEntry)) :
    (upsertKeyValueTabInfo db i T ti).monthly_weathers_attributes
      = db.monthly_weathers_attributes := rfl

theorem uKVT_rels (db : DB) (i : Nat) (T : String) (ti : List (String × TabEntry)) :
    (upsertKeyValueTabInfo db i T ti).cities_relationships = db.cities_relationships := rfl

theorem uW_tabs (db : DB) (i : Nat) (w : List (String × List MonthEntry)) :
    (upsertWeather db i w).tabs = (insertIgnore db.tabs ["name"] (nameRow "Weather")).1 := rfl

theorem uW_attributes (db : DB) (i : Nat) (w : List (String × List MonthEntry)) :
    (upsertWeather db i w).attributes
      = insertFold ["name", "id_tab"]
          (attrRow (tabIdOf (insertIgnore db.tabs ["name"] (nameRow "Weather")).1 "Weather"))
          db.attributes (w.map Prod.fst) := rfl

theorem uW_monthly (db : DB) (i : Nat) (w : List (String × List MonthEntry)) :
    (upsertWeather db i w).monthly_weathers_attributes
      = (weatherValues i (upsertTabAndAttributes db "Weather" (w.map Prod.fst)).1 w).foldl
          (upsertBy mwKey mwUpd) db.monthly_weathers_attributes := rfl

theorem uW_continents (db : DB) (i : Nat) (w : List (String × List MonthEntry)) :
    (upsertWeather db i w).continents = db.continents := rfl

theorem uW_countries (db : DB) (i : Nat) (w : List (String × List MonthEntry)) :
    (upsertWeather db i w).countries = db.countries := rfl

theorem uW_cities (db : DB) (i : Nat) (w : List (String × List MonthEntry)) :
    (upsertWeather db i w).cities = db.cities := rfl

theorem uW_city_attributes (db : DB) (i : Nat) (w : List (String × List MonthEntry)) :
    (upsertWeather db i w).city_attributes = db.city_attributes := rfl

theorem uW_photos (db : DB) (i : Nat) (w : List (String × List MonthEntry)) :
    (upsertWeather db i w).photos = db.photos := rfl

theorem uW_pros (db : DB) (i : Nat) (w : List (String × List MonthEntry)) :
    (upsertWeather db i w).pros_and_cons = db.pros_and_cons := rfl

theorem uW_reviews (db : DB) (i : Nat) (w : List (String × List MonthEntry)) :
    (upsertWeather db i w).reviews = db.reviews := rfl

theorem uW_rels (db : DB) (i : Nat) (w : List (String × List MonthEntry)) :
    (upsertWeather db i w).cities_relationships = db.cities_relationships := rfl

theorem rowsPhase_photos (db : DB) (i : Nat) (d : Details) :
    (rowsPhase db i d).photos = upsertManyPhotos db.photos i d.photos := rfl

theorem rowsPhase_pros (db : DB) (i : Nat) (d : Details) :
    (rowsPhase db i d).pros_and_cons
      = upsertManyProsCons db.pros_and_cons i d.pros d.cons := rfl

theorem rowsPhase_reviews (db : DB) (i : Nat) (d : Details) :
    (rowsPhase db i d).reviews = upsertManyReviews db.reviews i d.reviews := rfl

theorem rowsPhase_tabs (db : DB) (i : Nat) (d : Details) :
    (rowsPhase db i d).tabs = db.tabs := rfl

theorem rowsPhase_attributes (db : DB) (i : Nat) (d : Details) :
    (rowsPhase db i d).attributes = db.attributes := rfl

theorem rowsPhase_city_attributes (db : DB) (i : Nat) (d : Details) :
    (rowsPhase db i d).city_attributes = db.city_attributes := rfl

theorem rowsPhase_monthly (db : DB) (i : Nat) (d : Details) :
    (rowsPhase db i d).monthly_weathers_attributes = db.monthly_weathers_attributes := rfl

theorem rowsPhase_cities (db : DB) (i : Nat) (d : Details) :
    (rowsPhase db i d).cities = db.cities := rfl

theorem rowsPhase_continents (db : DB) (i : Nat) (d : Details) :
    (rowsPhase db i d).continents = db.continents := rfl

theorem rowsPhase_countries (db : DB) (i : Nat) (d : Details) :
    (rowsPhase db i d).countries = db.countries := rfl

theorem rowsPhase_rels (db : DB) (i : Nat) (d : Details) :
    (rowsPhase db i d).cities_relationships = db.cities_relationships := rfl

theorem insertCityInfo_snd (db : DB) (d : Details) :
    (insertCityInfo db d).2 = (relatedNames d).isEmpty := by
  show (insertRelationships (insertCityInfoNoRel db d) (upsertGeo db d).1 d).2
    = (relatedNames d).isEmpty
  exact insertRelationships_snd _ _ _

theorem upsertManyPhotos_eq (rows : List PhotoRow) (idCity : Nat) (srcs : List String) :
    upsertManyPhotos rows idCity srcs
      = (srcs.map fun s => ({ id_city := idCity, src := s } : PhotoRow)).foldl
          insertIgnoreRow rows :=
  (List.foldl_map _ _ _ _).symm

theorem upsertManyReviews_eq (rows : List ReviewRow) (idCity : Nat) (texts : List String) :
    upsertManyReviews rows idCity texts
      = (texts.map fun s => ({ id_city := idCity, description := s } : ReviewRow)).foldl
          insertIgnoreRow rows :=
  (List.foldl_map _ _ _ _).symm

/-! ## Re-run stability of the remaining steps -/

/-- Re-running `_upsert_key_value_tab_info` after the tables have only grown
(the tabs table by appended rows, the attributes table by rows of other tabs)
and each of its `city_attributes` value rows is already settled, changes
nothing. -/
theorem upsertKeyValueTabInfo_restable (dbp dbf : DB) (idCity : Nat) (T : String)
    (ti : List (String × TabEntry)) (tExt aExt : List (Nat × Row))
    (htf : dbf.tabs.rows = ((insertIgnore dbp.tabs ["name"] (nameRow T)).1).rows ++ tExt)
    (haf : dbf.attributes.rows
      = (insertFold ["name", "id_tab"]
          (attrRow (tabIdOf (insertIgnore dbp.tabs ["name"] (nameRow T)).1 T))
          dbp.attributes (ti.map Prod.fst)).rows ++ aExt)
    (haExt : ∀ r ∈ aExt, sqlEq (getCol r.2 "id_tab")
        (Val.int (Int.ofNat (tabIdOf (insertIgnore dbp.tabs ["name"] (nameRow T)).1 T)))
      = false)
    (hset : ∀ r ∈ cityAttrValues idCity (upsertTabAndAttributes dbp T (ti.map Prod.fst)).1 ti,
        Settled caKey dbf.city_attributes r) :
    upsertKeyValueTabInfo dbf idCity T ti = dbf := by
  have h1 := upsertTabAndAttributes_restable dbp dbf T (ti.map Prod.fst) tExt aExt htf haf haExt
  show { (upsertTabAndAttributes dbf T (ti.map Prod.fst)).2 with city_attributes :=
      ((cityAttrValues idCity (upsertTabAndAttributes dbf T (ti.map Prod.fst)).1 ti).foldl
        (upsertBy caKey caUpd)
        (upsertTabAndAttributes dbf T (ti.map Prod.fst)).2.city_attributes) }
    = dbf
  rw [h1]
  show { dbf with city_attributes :=
      ((cityAttrValues idCity (upsertTabAndAttributes dbp T (ti.map Prod.fst)).1 ti).foldl
        (upsertBy caKey caUpd) dbf.city_attributes) } = dbf
  rw [foldl_upsertBy_noop caKey caUpd _ _ (fun e r => caUpd_eq e r) hset]

/-- Re-running `_upsert_weather` under the same conditions changes nothing. -/
theorem upsertWeather_restable (dbp dbf : DB) (idCity : Nat)
    (w : List (String × List MonthEntry)) (tExt aExt : List (Nat × Row))
    (htf : dbf.tabs.rows
      = ((insertIgnore dbp.tabs ["name"] (nameRow "Weather")).1).rows ++ tExt)
    (haf : dbf.attributes.rows
      = (insertFold ["name", "id_tab"]
          (attrRow (tabIdOf (insertIgnore dbp.tabs ["name"] (nameRow "Weather")).1 "Weather"))
          dbp.attributes (w.map Prod.fst)).rows ++ aExt)
    (haExt : ∀ r ∈ aExt, sqlEq (getCol r.2 "id_tab")
        (Val.int (Int.ofNat (tabIdOf (insertIgnore dbp.tabs ["name"]
          (nameRow "Weather")).1 "Weather")))
      = false)
    (hset : ∀ r ∈ weatherValues idCity
        (upsertTabAndAttributes dbp "Weather" (w.map Prod.fst)).1 w,
        Settled mwKey dbf.monthly_weathers_attributes r) :
    upsertWeather dbf idCity w = dbf := by
  have h1 := upsertTabAndAttributes_restable dbp dbf "Weather" (w.map Prod.fst) tExt aExt
    htf haf haExt
  show { (upsertTabAndAttributes dbf "Weather" (w.map Prod.fst)).2 with
      monthly_weathers_attributes :=
        ((weatherValues idCity (upsertTabAndAttributes dbf "Weather" (w.map Prod.fst)).1 w).foldl
          (upsertBy mwKey mwUpd)
          (upsertTabAndAttributes dbf "Weather" (w.map Prod.fst)).2.monthly_weathers_attributes) }
    = dbf
  rw [h1]
  show { dbf with monthly_weathers_attributes :=
      ((weatherValues idCity (upsertTabAndAttributes dbp "Weather" (w.map Prod.fst)).1 w).foldl
        (upsertBy mwKey mwUpd) dbf.monthly_weathers_attributes) } = dbf
  rw [foldl_upsertBy_noop mwKey mwUpd _ _ (fun e r => mwUpd_eq e r) hset]

/-- Re-running the three `_upsert_many` steps when every built row is already
present changes nothing. -/
theorem rowsPhase_restable (dbf : DB) (idCity : Nat) (d : Details)
    (hph : ∀ s ∈ d.photos, ({ id_city := idCity, src := s } : PhotoRow) ∈ dbf.photos)
    (hpc : ∀ r ∈ (d.pros.map
          (fun p => ({ id_city := idCity, description := p, kind := "P" } : ProConRow))
        ++ d.cons.map fun c =>
          ({ id_city := idCity, description := c, kind := "C" } : ProConRow)),
        r ∈ dbf.pros_and_cons)
    (hrv : ∀ s ∈ d.reviews, ({ id_city := idCity, description := s } : ReviewRow)
        ∈ dbf.reviews) :
    rowsPhase dbf idCity d = dbf := by
  have h1 : upsertManyPhotos dbf.photos idCity d.photos = dbf.photos := by
    rw [upsertManyPhotos_eq]
    refine foldl_insertIgnoreRow_noop _ _ ?_
    intro r hr
    rcases List.mem_map.mp hr with ⟨s, hs, hrs⟩
    rw [← hrs]
    exact hph s hs
  have h2 : upsertManyProsCons dbf.pros_and_cons idCity d.pros d.cons = dbf.pros_and_cons := by
    show (d.pros.map
          (fun p => ({ id_city := idCity, description := p, kind := "P" } : ProConRow))
        ++ d.cons.map fun c =>
          ({ id_city := idCity, description := c, kind := "C" } : ProConRow)).foldl
        insertIgnoreRow dbf.pros_and_cons = dbf.pros_and_cons
    exact foldl_insertIgnoreRow_noop _ _ hpc
  have h3 : upsertManyReviews dbf.reviews idCity d.reviews = dbf.reviews := by
    rw [upsertManyReviews_eq]
    refine foldl_insertIgnoreRow_noop _ _ ?_
    intro r hr
    rcases List.mem_map.mp hr with ⟨s, hs, hrs⟩
    rw [← hrs]
    exact hrv s hs
  show { dbf with
      photos := upsertManyPhotos dbf.photos idCity d.photos
      pros_and_cons := upsertManyProsCons dbf.pros_and_cons idCity d.pros d.cons
      reviews := upsertManyReviews dbf.reviews idCity d.reviews } = dbf
  rw [h1, h2, h3]

/-- Re-running `_insert_relationships` when every bare name row and every edge
is already present re-raises nothing and changes nothing. -/
theorem insertRelationships_restable (dbf : DB) (idCity : Nat) (d : Details)
    (hne : ¬((relatedNames d).isEmpty = true))
    (hcit : ∀ n ∈ relatedNames d,
        (dbf.cities.rows.any fun r => conflicts ["name"] r.2 (nameRow n)) = true)
    (hed : ∀ e ∈ relEdges idCity d (relatedSelect dbf.cities (relatedNames d)),
        e ∈ dbf.cities_relationships) :
    insertRelationships dbf idCity d = (dbf, false) := by
  have hcities : insertFold ["name"] nameRow dbf.cities (relatedNames d) = dbf.cities :=
    insertFold_noop _ _ _ _ hcit
  unfold insertRelationships
  rw [if_neg hne, hcities]
  rw [foldl_insertIgnoreRow_noop _ _ hed]

/-- Master re-run lemma: with the intermediate states of a first successful
`insert_city_info` run named symbolically, a second run with the same record
on the first run's final state re-executes every step as a no-op and raises
nothing. -/
theorem pipeline_restable (db dbG db4 db5 db6 db7 db8 dbF : DB) (idC : Nat) (d : Details)
    (tS tD tC tW aS aD aC aW : Table) (iS iD iCo iW : Nat)
    (A1 A2 A3 AW : List (Nat × Val))
    (hwf : DBWF db)
    (hne : ¬((relatedNames d).isEmpty = true))
    (hG : upsertGeo db d = (idC, dbG))
    (htS : tS = (insertIgnore dbG.tabs ["name"] (nameRow "Scores")).1)
    (hiS : iS = tabIdOf tS "Scores")
    (haS : aS = insertFold ["name", "id_tab"] (attrRow iS) dbG.attributes
      (d.scores.map Prod.fst))
    (hA1 : A1 = (upsertTabAndAttributes dbG "Scores" (d.scores.map Prod.fst)).1)
    (h4 : db4 = upsertKeyValueTabInfo dbG idC "Scores" d.scores)
    (htD : tD = (insertIgnore tS ["name"] (nameRow "Digital Nomad Guide")).1)
    (hiD : iD = tabIdOf tD "Digital Nomad Guide")
    (haD : aD = insertFold ["name", "id_tab"] (attrRow iD) aS
      (d.digitalNomadGuide.map Prod.fst))
    (hA2 : A2 = (upsertTabAndAttributes db4 "Digital Nomad Guide"
      (d.digitalNomadGuide.map Prod.fst)).1)
    (h5 : db5 = upsertKeyValueTabInfo db4 idC "Digital Nomad Guide" d.digitalNomadGuide)
    (htC : tC = (insertIgnore tD ["name"] (nameRow "Cost of Living")).1)
    (hiC : iCo = tabIdOf tC "Cost of Living")
    (haC : aC = insertFold ["name", "id_tab"] (attrRow iCo) aD (d.costOfLiving.map Prod.fst))
    (hA3 : A3 = (upsertTabAndAttributes db5 "Cost of Living" (d.costOfLiving.map Prod.fst)).1)
    (h6 : db6 = upsertKeyValueTabInfo db5 idC "Cost of Living" d.costOfLiving)
    (h7 : db7 = rowsPhase db6 idC d)
    (htW : tW = (insertIgnore tC ["name"] (nameRow "Weather")).1)
    (hiW : iW = tabIdOf tW "Weather")
    (haW : aW = insertFold ["name", "id_tab"] (attrRow iW) aC (d.weather.map Prod.fst))
    (hAW : AW = (upsertTabAndAttributes db7 "Weather" (d.weather.map Prod.fst)).1)
    (h8 : db8 = upsertWeather db7 idC d.weather)
    (hF : dbF = (insertRelationships db8 idC d).1) :
    insertCityInfo dbF d = (dbF, false) := by
  have hdbG : (upsertGeo db d).2 = dbG := by rw [hG]
  have hidC : (upsertGeo db d).1 = idC := by rw [hG]
  have hGtabs : dbG.tabs = db.tabs := by rw [← hdbG, upsertGeo_tabs]
  have hGattrs : dbG.attributes = db.attributes := by rw [← hdbG, upsertGeo_attributes]
  have h4tabs : db4.tabs = tS := by rw [h4, uKVT_tabs, htS]
  have h4attrs : db4.attributes = aS := by rw [h4, uKVT_attributes, haS, hiS, htS]
  have h4ca : db4.city_attributes
      = (cityAttrValues idC A1 d.scores).foldl (upsertBy caKey caUpd) dbG.city_attributes := by
    rw [h4, uKVT_city_attributes, hA1]
  have h4cities : db4.cities = dbG.cities := by rw [h4, uKVT_cities]
  have h4cont : db4.continents = dbG.continents := by rw [h4, uKVT_continents]
  have h4coun : db4.countries = dbG.countries := by rw [h4, uKVT_countries]
  have h4ph : db4.photos = dbG.photos := by rw [h4, uKVT_photos]
  have h4pc : db4.pros_and_cons = dbG.pros_and_cons := by rw [h4, uKVT_pros]
  have h4rv : db4.reviews = dbG.reviews := by rw [h4, uKVT_reviews]
  have h4mw : db4.monthly_weathers_attributes = dbG.monthly_weathers_attributes := by
    rw [h4, uKVT_monthly]
  have h5tabs : db5.tabs = tD := by rw [h5, uKVT_tabs, h4tabs, htD]
  have h5attrs : db5.attributes = aD := by rw [h5, uKVT_attributes, h4tabs, h4attrs, haD, hiD, htD]
  have h5ca : db5.city_attributes
      = (cityAttrValues idC A2 d.digitalNomadGuide).foldl (upsertBy caKey caUpd)
          db4.city_attributes := by
    rw [h5, uKVT_city_attributes, hA2]
  have h5cities : db5.cities = db4.cities := by rw [h5, uKVT_cities]
  have h5cont : db5.continents = db4.continents := by rw [h5, uKVT_continents]
  have h5coun : db5.countries = db4.countries := by rw [h5, uKVT_countries]
  have h5ph : db5.photos = db4.photos := by rw [h5, uKVT_photos]
  have h5pc : db5.pros_and_cons = db4.pros_and_cons := by rw [h5, uKVT_pros]
  have h5rv : db5.reviews = db4.reviews := by rw [h5, uKVT_reviews]
  have h5mw : db5.monthly_weathers_attributes = db4.monthly_weathers_attributes := by
    rw [h5, uKVT_monthly]
  have h6tabs : db6.tabs = tC := by rw [h6, uKVT_tabs, h5tabs, htC]
  have h6attrs : db6.attributes = aC := by rw [h6, uKVT_attributes, h5tabs, h5attrs, haC, hiC, htC]
  have h6ca : db6.city_attributes
      = (cityAttrValues idC A3 d.costOfLiving).foldl (upsertBy caKey caUpd)
          db5.city_attributes := by
    rw [h6, uKVT_city_attributes, hA3]
  have h6cities : db6.cities = db5.cities := by rw [h6, uKVT_cities]
  have h6cont : db6.continents = db5.continents := by rw [h6, uKVT_continents]
  have h6coun : db6.countries = db5.countries := by rw [h6, uKVT_countries]
  have h6ph : db6.photos = db5.photos := by rw [h6, uKVT_photos]
  have h6pc : db6.pros_and_cons = db5.pros_and_cons := by rw [h6, uKVT_pros]
  have h6rv : db6.reviews = db5.reviews := by rw [h6, uKVT_reviews]
  have h6mw : db6.monthly_weathers_attributes = db5.monthly_weathers_attributes := by
    rw [h6, uKVT_monthly]
  have h7tabs : db7.tabs = tC := by rw [h7, rowsPhase_tabs, h6tabs]
  have h7attrs : db7.attributes = aC := by rw [h7, rowsPhase_attributes, h6attrs]
  have h7ca : db7.city_attributes = db6.city_attributes := by rw [h7, rowsPhase_city_attributes]
  have h7mw : db7.monthly_weathers_attributes = db6.monthly_weathers_attributes := by
    rw [h7, rowsPhase_monthly]
  have h7cities : db7.cities = db6.cities := by rw [h7, rowsPhase_cities]
  have h7cont : db7.continents = db6.continents := by rw [h7, rowsPhase_continents]
  have h7coun : db7.countries = db6.countries := by rw [h7, rowsPhase_countries]
  have h7ph : db7.photos = upsertManyPhotos db6.photos idC d.photos := by
    rw [h7, rowsPhase_photos]
  have h7pc : db7.pros_and_cons = upsertManyProsCons db6.pros_and_cons idC d.pros d.cons := by
    rw [h7, rowsPhase_pros]
  have h7rv : db7.reviews = upsertManyReviews db6.reviews idC d.reviews := by
    rw [h7, rowsPhase_reviews]
  have h8tabs : db8.tabs = tW := by rw [h8, uW_tabs, h7tabs, htW]
  have h8attrs : db8.attributes = aW := by rw [h8, uW_attributes, h7tabs, h7attrs, haW, hiW, htW]
  have h8mw : db8.monthly_weathers_attributes
      = (weatherValues idC AW d.weather).foldl (upsertBy mwKey mwUpd)
          db7.monthly_weathers_attributes := by
    rw [h8, uW_monthly, hAW]
  have h8ca : db8.city_attributes = db7.city_attributes := by rw [h8, uW_city_attributes]
  have h8cities : db8.cities = db7.cities := by rw [h8, uW_cities]
  have h8cont : db8.continents = db7.continents := by rw [h8, uW_continents]
  have h8coun : db8.countries = db7.countries := by rw [h8, uW_countries]
  have h8ph : db8.photos = db7.photos := by rw [h8, uW_photos]
  have h8pc : db8.pros_and_cons = db7.pros_and_cons := by rw [h8, uW_pros]
  have h8rv : db8.reviews = db7.reviews := by rw [h8, uW_reviews]
  have hFcities : dbF.cities = insertFold ["name"] nameRow db8.cities (relatedNames d) := by
    rw [hF, insertRelationships_cities]
  have hFcont : dbF.continents = db8.continents := by rw [hF, insertRelationships_continents]
  have hFcoun : dbF.countries = db8.countries := by rw [hF, insertRelationships_countries]
  have hFtabs : dbF.tabs = tW := by rw [hF, insertRelationships_tabs, h8tabs]
  have hFattrs : dbF.attributes = aW := by rw [hF, insertRelationships_attributes, h8attrs]
  have hFca : dbF.city_attributes = db8.city_attributes := by
    rw [hF, insertRelationships_city_attributes]
  have hFph : dbF.photos = db8.photos := by rw [hF, insertRelationships_photos]
  have hFpc : dbF.pros_and_cons = db8.pros_and_cons := by rw [hF, insertRelationships_pros]
  have hFrv : dbF.reviews = db8.reviews := by rw [hF, insertRelationships_reviews]
  have hFmw : dbF.monthly_weathers_attributes = db8.monthly_weathers_attributes := by
    rw [hF, insertRelationships_monthly]
  have hFrel : dbF.cities_relationships
      = (relEdges idC d (relatedSelect (insertFold ["name"] nameRow db8.cities (relatedNames d))
          (relatedNames d))).foldl insertIgnoreRow db8.cities_relationships := by
    rw [hF]
    exact insertRelationships_rels_nonempty db8 idC d hne
  have hwftS : TableWF tS := by
    rw [htS, hGtabs]
    exact insertIgnore_wf _ _ _ hwf.1
  have hwftD : TableWF tD := by
    rw [htD]
    exact insertIgnore_wf _ _ _ hwftS
  have hwftC : TableWF tC := by
    rw [htC]
    exact insertIgnore_wf _ _ _ hwftD
  have hwftW : TableWF tW := by
    rw [htW]
    exact insertIgnore_wf _ _ _ hwftC
  have hwfaS : TableWF aS := by
    rw [haS, hGattrs]
    exact insertFold_wf _ _ _ _ hwf.2
  have hwfaD : TableWF aD := by
    rw [haD]
    exact insertFold_wf _ _ _ _ hwfaS
  have hwfaC : TableWF aC := by
    rw [haC]
    exact insertFold_wf _ _ _ _ hwfaD
  have hwfaW : TableWF aW := by
    rw [haW]
    exact insertFold_wf _ _ _ _ hwfaC
  rcases insertIgnore_rows_ext tS ["name"] (nameRow "Digital Nomad Guide") with ⟨e1, he1⟩
  rw [← htD] at he1
  rcases insertIgnore_rows_ext tD ["name"] (nameRow "Cost of Living") with ⟨e2, he2⟩
  rw [← htC] at he2
  rcases insertIgnore_rows_ext tC ["name"] (nameRow "Weather") with ⟨e3, he3⟩
  rw [← htW] at he3
  rcases insertIgnore_name_found dbG.tabs "Scores" with ⟨prS, hprS⟩
  rw [← htS] at hprS
  have hprSD : tD.rows.find? (fun r => sqlEq (getCol r.2 "name") (Val.str "Scores"))
      = some prS := by
    rw [he1]
    exact find?_append_some _ _ _ _ hprS
  have hprSC : tC.rows.find? (fun r => sqlEq (getCol r.2 "name") (Val.str "Scores"))
      = some prS := by
    rw [he2]
    exact find?_append_some _ _ _ _ hprSD
  have hprSW : tW.rows.find? (fun r => sqlEq (getCol r.2 "name") (Val.str "Scores"))
      = some prS := by
    rw [he3]
    exact find?_append_some _ _ _ _ hprSC
  rcases insertIgnore_name_found tS "Digital Nomad Guide" with ⟨prD, hprD⟩
  rw [← htD] at hprD
  have hprDC : tC.rows.find? (fun r => sqlEq (getCol r.2 "name") (Val.str "Digital Nomad Guide"))
      = some prD := by
    rw [he2]
    exact find?_append_some _ _ _ _ hprD
  have hprDW : tW.rows.find? (fun r => sqlEq (getCol r.2 "name") (Val.str "Digital Nomad Guide"))
      = some prD := by
    rw [he3]
    exact find?_append_some _ _ _ _ hprDC
  rcases insertIgnore_name_found tD "Cost of Living" with ⟨prC, hprC⟩
  rw [← htC] at hprC
  have hprCW : tW.rows.find? (fun r => sqlEq (getCol r.2 "name") (Val.str "Cost of Living"))
      = some prC := by
    rw [he3]
    exact find?_append_some _ _ _ _ hprC
  rcases insertIgnore_name_found tC "Weather" with ⟨prW, hprW⟩
  rw [← htW] at hprW
  have hiS_W : iS = tabIdOf tW "Scores" := by
    rw [hiS, tabIdOf_stable tC tW "Scores" e3 prS he3 hprSC,
      tabIdOf_stable tD tC "Scores" e2 prS he2 hprSD,
      tabIdOf_stable tS tD "Scores" e1 prS he1 hprS]
  have hiD_W : iD = tabIdOf tW "Digital Nomad Guide" := by
    rw [hiD, tabIdOf_stable tC tW "Digital Nomad Guide" e3 prD he3 hprDC,
      tabIdOf_stable tD tC "Digital Nomad Guide" e2 prD he2 hprD]
  have hiC_W : iCo = tabIdOf tW "Cost of Living" := by
    rw [hiC, tabIdOf_stable tC tW "Cost of Living" e3 prC he3 hprC]
  have hiW_W : iW = tabIdOf tW "Weather" := hiW
  have hSD : iS ≠ iD := by
    rw [hiS_W, hiD_W]
    exact tabIdOf_ne_of_found tW _ _ (by decide) hwftW.1 prS prD hprSW hprDW
  have hSC : iS ≠ iCo := by
    rw [hiS_W, hiC_W]
    exact tabIdOf_ne_of_found tW _ _ (by decide) hwftW.1 prS prC hprSW hprCW
  have hSW : iS ≠ iW := by
    rw [hiS_W, hiW_W]
    exact tabIdOf_ne_of_found tW _ _ (by decide) hwftW.1 prS prW hprSW hprW
  have hDC : iD ≠ iCo := by
    rw [hiD_W, hiC_W]
    exact tabIdOf_ne_of_found tW _ _ (by decide) hwftW.1 prD prC hprDW hprCW
  have hDW : iD ≠ iW := by
    rw [hiD_W, hiW_W]
    exact tabIdOf_ne_of_found tW _ _ (by decide) hwftW.1 prD prW hprDW hprW
  have hCW : iCo ≠ iW := by
    rw [hiC_W, hiW_W]
    exact tabIdOf_ne_of_found tW _ _ (by decide) hwftW.1 prC prW hprCW hprW
  rcases insertFold_attrRow_ext aS iD (d.digitalNomadGuide.map Prod.fst) with ⟨xD, hxD, hxDtab⟩
  rw [← haD] at hxD
  rcases insertFold_attrRow_ext aD iCo (d.costOfLiving.map Prod.fst) with ⟨xC, hxC, hxCtab⟩
  rw [← haC] at hxC
  rcases insertFold_attrRow_ext aC iW (d.weather.map Prod.fst) with ⟨xW, hxW, hxWtab⟩
  rw [← haW] at hxW
  have hA1s : A1 = selectAttrs aS iS := by rw [hA1, uTA_fst, ← htS, ← hiS, ← haS]
  have hA2s : A2 = selectAttrs aD iD := by
    rw [hA2, uTA_fst, h4tabs, h4attrs, ← htD, ← hiD, ← haD]
  have hA3s : A3 = selectAttrs aC iCo := by
    rw [hA3, uTA_fst, h5tabs, h5attrs, ← htC, ← hiC, ← haC]
  have hAWs : AW = selectAttrs aW iW := by
    rw [hAW, uTA_fst, h7tabs, h7attrs, ← htW, ← hiW, ← haW]
  have hA1ids : (A1.map Prod.fst).Nodup := by
    rw [hA1s]
    exact selectAttrs_ids_nodup _ _ hwfaS.1
  have hA2ids : (A2.map Prod.fst).Nodup := by
    rw [hA2s]
    exact selectAttrs_ids_nodup _ _ hwfaD.1
  have hA3ids : (A3.map Prod.fst).Nodup := by
    rw [hA3s]
    exact selectAttrs_ids_nodup _ _ hwfaC.1
  have hAWids : (AW.map Prod.fst).Nodup := by
    rw [hAWs]
    exact selectAttrs_ids_nodup _ _ hwfaW.1
  have hFca2 : dbF.city_attributes
      = (cityAttrValues idC A3 d.costOfLiving).foldl (upsertBy caKey caUpd)
          ((cityAttrValues idC A2 d.digitalNomadGuide).foldl (upsertBy caKey caUpd)
            ((cityAttrValues idC A1 d.scores).foldl (upsertBy caKey caUpd)
              dbG.city_attributes)) := by
    rw [hFca, h8ca, h7ca, h6ca, h5ca, h4ca]
  have hxDC : aC.rows = aS.rows ++ (xD ++ xC) := by
    rw [hxC, hxD, List.append_assoc]
  have hd21 : ∀ r2 ∈ cityAttrValues idC A2 d.digitalNomadGuide,
      ∀ r ∈ cityAttrValues idC A1 d.scores, caKey r2 ≠ caKey r := by
    intro r2 hr2 r hr
    rcases cityAttrValues_mem _ _ _ r2 hr2 with ⟨hc2, q, hq, hq1⟩
    rcases cityAttrValues_mem _ _ _ r hr with ⟨hc1, p, hp, hp1⟩
    rw [hA1s] at hp
    rw [hA2s] at hq
    have hne2 : p.1 ≠ q.1 := selectAttrs_id_disjoint aS aD iS iD xD hxD hwfaD.1 hSD p q hp hq
    intro he
    simp only [caKey, Prod.mk.injEq] at he
    refine hne2 ?_
    rw [← hp1, ← hq1]
    exact he.2.symm
  have hd31 : ∀ r2 ∈ cityAttrValues idC A3 d.costOfLiving,
      ∀ r ∈ cityAttrValues idC A1 d.scores, caKey r2 ≠ caKey r := by
    intro r2 hr2 r hr
    rcases cityAttrValues_mem _ _ _ r2 hr2 with ⟨hc2, q, hq, hq1⟩
    rcases cityAttrValues_mem _ _ _ r hr with ⟨hc1, p, hp, hp1⟩
    rw [hA1s] at hp
    rw [hA3s] at hq
    have hne2 : p.1 ≠ q.1 :=
      selectAttrs_id_disjoint aS aC iS iCo (xD ++ xC) hxDC hwfaC.1 hSC p q hp hq
    intro he
    simp only [caKey, Prod.mk.injEq] at he
    refine hne2 ?_
    rw [← hp1, ← hq1]
    exact he.2.symm
  have hd32 : ∀ r2 ∈ cityAttrValues idC A3 d.costOfLiving,
      ∀ r ∈ cityAttrValues idC A2 d.digitalNomadGuide, caKey r2 ≠ caKey r := by
    intro r2 hr2 r hr
    rcases cityAttrValues_mem _ _ _ r2 hr2 with ⟨hc2, q, hq, hq1⟩
    rcases cityAttrValues_mem _ _ _ r hr with ⟨hc1, p, hp, hp1⟩
    rw [hA2s] at hp
    rw [hA3s] at hq
    have hne2 : p.1 ≠ q.1 := selectAttrs_id_disjoint aD aC iD iCo xC hxC hwfaC.1 hDC p q hp hq
    intro he
    simp only [caKey, Prod.mk.injEq] at he
    refine hne2 ?_
    rw [← hp1, ← hq1]
    exact he.2.symm
  have hsetS : ∀ r ∈ cityAttrValues idC A1 d.scores,
      Settled caKey dbF.city_attributes r := by
    intro r hr
    rw [hFca2]
    refine foldl_upsertBy_preserves_settled caKey caUpd _ _ r (fun e r2 => caKey_upd e r2)
      (fun r2 hr2 => hd31 r2 hr2 r hr) ?_
    refine foldl_upsertBy_preserves_settled caKey caUpd _ _ r (fun e r2 => caKey_upd e r2)
      (fun r2 hr2 => hd21 r2 hr2 r hr) ?_
    exact foldl_upsertBy_settles caKey caUpd _ _ r (fun e r2 h => caUpd_eq e r2 h)
      (fun e r2 => caKey_upd e r2) (cityAttrValues_caKeys_nodup idC A1 d.scores hA1ids) hr
  have hsetD : ∀ r ∈ cityAttrValues idC A2 d.digitalNomadGuide,
      Settled caKey dbF.city_attributes r := by
    intro r hr
    rw [hFca2]
    refine foldl_upsertBy_preserves_settled caKey caUpd _ _ r (fun e r2 => caKey_upd e r2)
      (fun r2 hr2 => hd32 r2 hr2 r hr) ?_
    exact foldl_upsertBy_settles caKey caUpd _ _ r (fun e r2 h => caUpd_eq e r2 h)
      (fun e r2 => caKey_upd e r2)
      (cityAttrValues_caKeys_nodup idC A2 d.digitalNomadGuide hA2ids) hr
  have hsetC : ∀ r ∈ cityAttrValues idC A3 d.costOfLiving,
      Settled caKey dbF.city_attributes r := by
    intro r hr
    rw [hFca2]
    exact foldl_upsertBy_settles caKey caUpd _ _ r (fun e r2 h => caUpd_eq e r2 h)
      (fun e r2 => caKey_upd e r2)
      (cityAttrValues_caKeys_nodup idC A3 d.costOfLiving hA3ids) hr
  have hFmw2 : dbF.monthly_weathers_attributes
      = (weatherValues idC AW d.weather).foldl (upsertBy mwKey mwUpd)
          db7.monthly_weathers_attributes := by
    rw [hFmw, h8mw]
  have hsetW : ∀ r ∈ weatherValues idC AW d.weather,
      Settled mwKey dbF.monthly_weathers_attributes r := by
    intro r hr
    rw [hFmw2]
    exact foldl_upsertBy_settles mwKey mwUpd _ _ r (fun e r2 h => mwUpd_eq e r2 h)
      (fun e r2 => mwKey_upd e r2) (weatherValues_mwKeys_nodup idC AW d.weather hAWids) hr
  have hFph2 : dbF.photos = upsertManyPhotos dbG.photos idC d.photos := by
    rw [hFph, h8ph, h7ph, h6ph, h5ph, h4ph]
  have hmemP : ∀ s ∈ d.photos, ({ id_city := idC, src := s } : PhotoRow) ∈ dbF.photos := by
    intro s hs
    rw [hFph2, upsertManyPhotos_eq]
    exact mem_foldl_insertIgnoreRow_of_mem_list _ _ _
      (List.mem_map_of_mem (fun s => ({ id_city := idC, src := s } : PhotoRow)) hs)
  have hFpc2 : dbF.pros_and_cons = upsertManyProsCons dbG.pros_and_cons idC d.pros d.cons := by
    rw [hFpc, h8pc, h7pc, h6pc, h5pc, h4pc]
  have hmemPC : ∀ r ∈ (d.pros.map
        (fun p => ({ id_city := idC, description := p, kind := "P" } : ProConRow))
      ++ d.cons.map fun c =>
        ({ id_city := idC, description := c, kind := "C" } : ProConRow)),
      r ∈ dbF.pros_and_cons := by
    intro r hr
    rw [hFpc2]
    show r ∈ (d.pros.map
        (fun p => ({ id_city := idC, description := p, kind := "P" } : ProConRow))
      ++ d.cons.map fun c =>
        ({ id_city := idC, description := c, kind := "C" } : ProConRow)).foldl
      insertIgnoreRow dbG.pros_and_cons
    exact mem_foldl_insertIgnoreRow_of_mem_list _ _ _ hr
  have hFrv2 : dbF.reviews = upsertManyReviews dbG.reviews idC d.reviews := by
    rw [hFrv, h8rv, h7rv, h6rv, h5rv, h4rv]
  have hmemR : ∀ s ∈ d.reviews, ({ id_city := idC, description := s } : ReviewRow)
      ∈ dbF.reviews := by
    intro s hs
    rw [hFrv2, upsertManyReviews_eq]
    exact mem_foldl_insertIgnoreRow_of_mem_list _ _ _
      (List.mem_map_of_mem (fun s => ({ id_city := idC, description := s } : ReviewRow)) hs)
  have hFcities2 : dbF.cities = insertFold ["name"] nameRow dbG.cities (relatedNames d) := by
    rw [hFcities, h8cities, h7cities, h6cities, h5cities, h4cities]
  have hconfN : ∀ n ∈ relatedNames d,
      (dbF.cities.rows.any fun r => conflicts ["name"] r.2 (nameRow n)) = true := by
    intro n hn
    rw [hFcities2]
    exact insertFold_conflict_present ["name"] nameRow dbG.cities (relatedNames d) n hn
      (conflicts_nameRow_self n)
  have hFrel2 : dbF.cities_relationships
      = (relEdges idC d (relatedSelect dbF.cities (relatedNames d))).foldl insertIgnoreRow
          db8.cities_relationships := by
    rw [hFrel, h8cities, h7cities, h6cities, h5cities, h4cities, ← hFcities2]
  have hmemE : ∀ e ∈ relEdges idC d (relatedSelect dbF.cities (relatedNames d)),
      e ∈ dbF.cities_relationships := by
    intro e he
    rw [hFrel2]
    exact mem_foldl_insertIgnoreRow_of_mem_list _ _ _ he
  have hgeoCont : dbF.continents = (upsertGeo db d).2.continents := by
    rw [hFcont, h8cont, h7cont, h6cont, h5cont, h4cont, ← hdbG]
  have hgeoCoun : dbF.countries = (upsertGeo db d).2.countries := by
    rw [hFcoun, h8coun, h7coun, h6coun, h5coun, h4coun, ← hdbG]
  rcases insertFold_rows ["name"] nameRow dbG.cities (relatedNames d) with ⟨extC, hextC, _, _, _⟩
  have hgeoCit : dbF.cities.rows = (upsertGeo db d).2.cities.rows ++ extC := by
    rw [hFcities2, hextC, ← hdbG]
  have hGeo2 : upsertGeo dbF d = (idC, dbF) := by
    have h := upsertGeo_restable db dbF d extC hgeoCont hgeoCoun hgeoCit
    rw [hidC] at h
    exact h
  have hS : upsertKeyValueTabInfo dbF idC "Scores" d.scores = dbF := by
    refine upsertKeyValueTabInfo_restable dbG dbF idC "Scores" d.scores
      (e1 ++ e2 ++ e3) (xD ++ xC ++ xW) ?_ ?_ ?_ ?_
    · rw [← htS, hFtabs, he3, he2, he1]
      simp only [List.append_assoc]
    · rw [← htS, ← hiS, ← haS, hFattrs, hxW, hxC, hxD]
      simp only [List.append_assoc]
    · rw [← htS, ← hiS]
      intro r hr
      rcases List.mem_append.mp hr with h12 | h3
      · rcases List.mem_append.mp h12 with hD2 | hC3
        · rw [hxDtab r hD2]
          exact sqlEq_int_ne iD iS (Ne.symm hSD)
        · rw [hxCtab r hC3]
          exact sqlEq_int_ne iCo iS (Ne.symm hSC)
      · rw [hxWtab r h3]
        exact sqlEq_int_ne iW iS (Ne.symm hSW)
    · rw [← hA1]
      exact hsetS
  have hD : upsertKeyValueTabInfo dbF idC "Digital Nomad Guide" d.digitalNomadGuide = dbF := by
    refine upsertKeyValueTabInfo_restable db4 dbF idC "Digital Nomad Guide" d.digitalNomadGuide
      (e2 ++ e3) (xC ++ xW) ?_ ?_ ?_ ?_
    · rw [h4tabs, ← htD, hFtabs, he3, he2]
      simp only [List.append_assoc]
    · rw [h4tabs, h4attrs, ← htD, ← hiD, ← haD, hFattrs, hxW, hxC]
      simp only [List.append_assoc]
    · rw [h4tabs, ← htD, ← hiD]
      intro r hr
      rcases List.mem_append.mp hr with hC3 | hW3
      · rw [hxCtab r hC3]
        exact sqlEq_int_ne iCo iD (Ne.symm hDC)
      · rw [hxWtab r hW3]
        exact sqlEq_int_ne iW iD (Ne.symm hDW)
    · rw [← hA2]
      exact hsetD
  have hC : upsertKeyValueTabInfo dbF idC "Cost of Living" d.costOfLiving = dbF := by
    refine upsertKeyValueTabInfo_restable db5 dbF idC "Cost of Living" d.costOfLiving
      e3 xW ?_ ?_ ?_ ?_
    · rw [h5tabs, ← htC, hFtabs, he3]
    · rw [h5tabs, h5attrs, ← htC, ← hiC, ← haC, hFattrs, hxW]
    · rw [h5tabs, ← htC, ← hiC]
      intro r hr
      rw [hxWtab r hr]
      exact sqlEq_int_ne iW iCo (Ne.symm hCW)
    · rw [← hA3]
      exact hsetC
  have hR : rowsPhase dbF idC d = dbF := rowsPhase_restable dbF idC d hmemP hmemPC hmemR
  have hW : upsertWeather dbF idC d.weather = dbF := by
    refine upsertWeather_restable db7 dbF idC d.weather [] [] ?_ ?_ ?_ ?_
    · rw [h7tabs, ← htW, hFtabs, List.append_nil]
    · rw [h7tabs, h7attrs, ← htW, ← hiW, ← haW, hFattrs, List.append_nil]
    · intro r hr
      exact absurd hr (List.not_mem_nil r)
    · rw [← hAW]
      exact hsetW
  have hRel : insertRelationships dbF idC d = (dbF, false) :=
    insertRelationships_restable dbF idC d hne hconfN hmemE
  have hNoRel : insertCityInfoNoRel dbF d = dbF := by
    unfold insertCityInfoNoRel
    rw [hGeo2]
    show upsertWeather (rowsPhase (tabsPhase dbF idC d) idC d) idC d.weather = dbF
    have htabsPhase : tabsPhase dbF idC d = dbF := by
      show upsertKeyValueTabInfo (upsertKeyValueTabInfo
          (upsertKeyValueTabInfo dbF idC "Scores" d.scores)
          idC "Digital Nomad Guide" d.digitalNomadGuide)
        idC "Cost of Living" d.costOfLiving = dbF
      rw [hS, hD, hC]
    rw [htabsPhase, hR, hW]
  show ((insertRelationships (insertCityInfoNoRel dbF d) (upsertGeo dbF d).1 d).1,
      (insertRelationships (insertCityInfoNoRel dbF d) (upsertGeo dbF d).1 d).2) = (dbF, false)
  rw [hNoRel, hGeo2]
  show ((insertRelationships dbF idC d).1, (insertRelationships dbF idC d).2) = (dbF, false)
  rw [hRel]

/-- A second `insert_city_info` run on the state a first run left behind —
under the sound-auto-increment invariant and a first run that did not raise —
is a complete no-op. -/
theorem insertCityInfo_restable (db : DB) (d : Details) (hwf : DBWF db)
    (hne : ¬((relatedNames d).isEmpty = true)) :
    insertCityInfo (insertCityInfo db d).1 d = ((insertCityInfo db d).1, false) := by
  refine pipeline_restable db _ _ _ _ _ _ _ _ d _ _ _ _ _ _ _ _ _ _ _ _ _ _ _ _ hwf hne
    rfl rfl rfl rfl rfl rfl rfl rfl rfl rfl rfl rfl rfl rfl rfl rfl rfl rfl rfl rfl rfl rfl rfl

/-- C1.  For a detail record whose run of `insert_city_info` completed without
raising, on a database whose tabs and attributes tables carry sound
auto-increment ids, calling `insert_city_info` again with the same record
leaves the database exactly as the first call left it: every upsert finds its
row unchanged and issues no statement, every `INSERT IGNORE` row already
conflicts, every keyed update rewrites identical values, and the second call
returns the same state with no raise. -/
theorem insert_city_info_idempotent (db : DB) (d : Details) (hwf : DBWF db)
    (hok : (insertCityInfo db d).2 = false) :
    insertCityInfo (insertCityInfo db d).1 d = ((insertCityInfo db d).1, false) := by
  have hne : ¬((relatedNames d).isEmpty = true) := by
    rw [insertCityInfo_snd] at hok
    rw [hok]
    simp
  exact insertCityInfo_restable db d hwf hne

/-- C1 (witness): on the empty database and the concrete Lisbon record, the
hypotheses hold by evaluation and the second run is a no-op. -/
theorem insert_city_info_idempotent_witness :
    DBWF emptyDB ∧ (insertCityInfo emptyDB exDetails).2 = false ∧
      insertCityInfo (insertCityInfo emptyDB exDetails).1 exDetails
        = ((insertCityInfo emptyDB exDetails).1, false) :=
  ⟨by decide, by decide,
    insert_city_info_idempotent emptyDB exDetails (by decide) (by decide)⟩

end NomadList
